import Mathlib

/-!
Shallow embedding of the interactive 3D book (`src/book/book.ts`).

Modelling conventions:
* JS `number` values that the state machine manipulates (times, the spread
  index, flip directions, rotations) are modelled as `ℚ`.  `performance.now()`
  is passed to each operation as an explicit `now : ℚ` parameter.
* Scene-node rotations are stored in units of π: the code's `Math.PI / 2`
  becomes `1/2`, `-Math.PI * k` becomes `-k`.
* Texture handles are opaque identifiers (`Tex`); `Texture.clone()` produces a
  fresh identifier drawn from a counter carried in the state.  A spread's
  `left`/`right` handle is `Option Tex` because `validateConfig` tests its
  truthiness (`s.left && s.right`).
* JS array indexing `arr[i]` with an arbitrary numeric index is `jsIndex`:
  it yields the element for an integral in-range index and `undefined`
  (`none`) otherwise.  Accessing a property of `undefined` throws a
  `TypeError`; operations that can throw return a `Bool` "threw" flag next to
  the (partially mutated, as in JS) state.
* Mesh visibility flags, pivot child lists (holding the transient turning
  meshes, identified by `Nat` ids from a counter) and material `map`
  assignments are explicit state fields.  Geometry, positions, lighting and
  the DOM page-info element do not affect any tracked state and are omitted.
-/

namespace Book3D

/-- An opaque texture handle; equality is reference identity. -/
structure Tex where
  id : Nat
deriving DecidableEq, Repr

/-- A spread: a left/right pair of texture handles (`book.types.ts`).
`Option` models a possibly-missing (`undefined`) handle. -/
structure Spread where
  left : Option Tex
  right : Option Tex
deriving DecidableEq, Repr

/-- The two static page meshes `leftPage` / `rightPage`. -/
inductive PageRef | leftP | rightP
deriving DecidableEq, Repr

/-- The two reveal meshes `underLeft` / `underRight`. -/
inductive UnderRef | underL | underR
deriving DecidableEq, Repr

/-- The two flip hinge pivots `pivotL` / `pivotR`. -/
inductive PivotRef | pivL | pivR
deriving DecidableEq, Repr

/-- Construction input (`BookConfig`), restricted to the fields that the
state machine reads: the spread list, the animation speeds and the initial
spread index (optional fields defaulted in the constructor). -/
structure BookConfig where
  spreads : List Spread
  coverSpeed : Option ℚ
  flipSpeed : Option ℚ
  initialSpreadIndex : Option ℚ
deriving DecidableEq, Repr

/-- The `this.cover` record (without the constant rotation endpoints, which
are inlined where used).  The source field `open` is a Lean keyword and is
rendered `isOpen`. -/
structure CoverRec where
  isOpen : Bool
  t0 : ℚ
  anim : Bool
deriving DecidableEq, Repr

/-- The `this.flip` record. -/
structure FlipRec where
  active : Bool
  dir : ℚ
  t0 : ℚ
  pivot : Option PivotRef
  hidden : Option PageRef
  frontMesh : Option Nat
  backMesh : Option Nat
  under : Option UnderRef
  other : Option PageRef
  otherWasVisible : Bool
deriving DecidableEq, Repr

/-- The mutable state of a `Book` instance (the fields of `book.ts` that the
state machine reads or writes). -/
structure BookState where
  spreads : List Spread
  coverSpeed : ℚ
  flipSpeed : ℚ
  spreadIndex : ℚ
  flippedCache : List (String × Tex)
  nextTexId : Nat
  nextMeshId : Nat
  leftMap : Option Tex
  rightMap : Option Tex
  underMapL : Option Tex
  underMapR : Option Tex
  leftPageVis : Bool
  rightPageVis : Bool
  underLeftVis : Bool
  underRightVis : Bool
  pivotLRot : ℚ
  pivotRRot : ℚ
  pivotLChildren : List Nat
  pivotRChildren : List Nat
  leftCoverRot : ℚ
  rightCoverRot : ℚ
  halfLRot : ℚ
  halfRRot : ℚ
  cover : CoverRec
  flip : FlipRec
deriving DecidableEq, Repr

/-- `THREE.MathUtils.clamp(value, min, max) = Math.max(min, Math.min(max, value))`. -/
def mclamp (value lo hi : ℚ) : ℚ := max lo (min hi value)

/-- `THREE.MathUtils.lerp(x, y, t) = (1 - t) * x + t * y`. -/
def lerp (x y t : ℚ) : ℚ := (1 - t) * x + t * y

/-- The ease-in-out cubic from `update`:
`x < 0.5 ? 4 x³ : 1 - (-2x + 2)³ / 2`. -/
def easeInOut (x : ℚ) : ℚ :=
  if x < 1/2 then 4 * x ^ 3 else 1 - (-2 * x + 2) ^ 3 / 2

/-- JS array read `l[i]` for a numeric index: the element when `i` is an
integral index in range, `undefined` (`none`) otherwise. -/
def jsIndex {α : Type} (l : List α) (i : ℚ) : Option α :=
  if i.den = 1 ∧ 0 ≤ i.num then l.get? i.num.toNat else none

/-- Lookup in the `flippedCache` association list (JS `Map.get`/`Map.has`;
insertion order is kept but irrelevant since keys are never overwritten). -/
def cacheFind : List (String × Tex) → String → Option Tex
  | [], _ => none
  | (k, v) :: rest, key => if k = key then some v else cacheFind rest key

/-- Visibility of a static page mesh. -/
def pageVis (s : BookState) : PageRef → Bool
  | .leftP => s.leftPageVis
  | .rightP => s.rightPageVis

/-- Set the visibility of a static page mesh. -/
def setPageVis (p : PageRef) (b : Bool) (s : BookState) : BookState :=
  match p with
  | .leftP => { s with leftPageVis := b }
  | .rightP => { s with rightPageVis := b }

/-- Visibility of a reveal ("under") mesh. -/
def underVis (s : BookState) : UnderRef → Bool
  | .underL => s.underLeftVis
  | .underR => s.underRightVis

/-- Material `map` of a reveal mesh (`underMatL.map` / `underMatR.map`). -/
def underMap (s : BookState) : UnderRef → Option Tex
  | .underL => s.underMapL
  | .underR => s.underMapR

/-- Rotation (in units of π) of a flip hinge pivot. -/
def pivotRot (s : BookState) : PivotRef → ℚ
  | .pivL => s.pivotLRot
  | .pivR => s.pivotRRot

/-- Set the rotation of a flip hinge pivot. -/
def setPivotRot (p : PivotRef) (r : ℚ) (s : BookState) : BookState :=
  match p with
  | .pivL => { s with pivotLRot := r }
  | .pivR => { s with pivotRRot := r }

/-- Child list of a flip hinge pivot. -/
def pivotChildren (s : BookState) : PivotRef → List Nat
  | .pivL => s.pivotLChildren
  | .pivR => s.pivotRChildren

/-- `pivot?.remove(mesh)`: remove the first occurrence of a child from the
referenced pivot; a `null` pivot removes nothing. -/
def removePivotChild (p : Option PivotRef) (mid : Nat) (s : BookState) : BookState :=
  match p with
  | some .pivL => { s with pivotLChildren := s.pivotLChildren.erase mid }
  | some .pivR => { s with pivotRChildren := s.pivotRChildren.erase mid }
  | none => s

/-- `pivot.add(mesh1, mesh2)` on the referenced pivot. -/
def addPivotChildren (p : PivotRef) (m1 m2 : Nat) (s : BookState) : BookState :=
  match p with
  | .pivL => { s with pivotLChildren := s.pivotLChildren ++ [m1, m2] }
  | .pivR => { s with pivotRChildren := s.pivotRChildren ++ [m1, m2] }

/-- `isCoverOpen()`. -/
def isCoverOpen (s : BookState) : Bool := s.cover.isOpen

/-- `isFlipActive()`. -/
def isFlipActive (s : BookState) : Bool := s.flip.active

/-- `validateConfig`: the spread list is non-empty and every spread has
truthy `left` and `right` handles. -/
def validateConfig (spreads : List Spread) : Bool :=
  !spreads.isEmpty && spreads.all fun sp => sp.left.isSome && sp.right.isSome

/-- `setSpread(i)`: clamp into `[0, spreads.length - 1]`, store the index,
then read `spreads[index]` and assign the static page materials.  The read
yields `undefined` for a non-integral clamped index, making the subsequent
`spread.left` access throw; the returned flag records the throw, the partial
mutation (the already-updated `spreadIndex`) persists. -/
def setSpread (i : ℚ) (s : BookState) : BookState × Bool :=
  let idx := mclamp i 0 ((s.spreads.length : ℚ) - 1)
  let s := { s with spreadIndex := idx }
  match jsIndex s.spreads idx with
  | none => (s, true)
  | some sp => ({ s with leftMap := sp.left, rightMap := sp.right }, false)

/-- The initial field values set by the constructor before the final
`setSpread(this.spreadIndex)` call (meshes are created visible; the reveal
meshes are explicitly hidden; pivots start empty with rotation 0). -/
def initState (cfg : BookConfig) : BookState where
  spreads := cfg.spreads
  coverSpeed := cfg.coverSpeed.getD (8/5)
  flipSpeed := cfg.flipSpeed.getD (6/5)
  spreadIndex := cfg.initialSpreadIndex.getD 0
  flippedCache := []
  nextTexId := 0
  nextMeshId := 0
  leftMap := none
  rightMap := none
  underMapL := none
  underMapR := none
  leftPageVis := true
  rightPageVis := true
  underLeftVis := false
  underRightVis := false
  pivotLRot := 0
  pivotRRot := 0
  pivotLChildren := []
  pivotRChildren := []
  leftCoverRot := 0
  rightCoverRot := 0
  halfLRot := 0
  halfRRot := 0
  cover := { isOpen := true, t0 := 0, anim := false }
  flip := { active := false, dir := 0, t0 := 0, pivot := none, hidden := none,
            frontMesh := none, backMesh := none, under := none, other := none,
            otherWasVisible := true }

/-- The constructor: `validateConfig` throws on an empty spread list or a
missing handle; afterwards `setSpread(this.spreadIndex)` runs and any throw
there also aborts construction. -/
def mkBook (cfg : BookConfig) : Except String BookState :=
  if cfg.spreads.isEmpty then
    .error "spreads debe tener al menos 1 spread"
  else if !(cfg.spreads.all fun sp => sp.left.isSome && sp.right.isSome) then
    .error "cada spread debe tener left y right"
  else
    let r := setSpread (cfg.initialSpreadIndex.getD 0) (initState cfg)
    if r.2 then .error "TypeError" else .ok r.1

/-- `toggleCover()`: rejected while a flip is active or a cover animation is
in flight; otherwise flips `open`, records the clock and starts animating. -/
def toggleCover (now : ℚ) (s : BookState) : BookState :=
  if s.flip.active || s.cover.anim then s
  else { s with cover := { isOpen := !s.cover.isOpen, t0 := now, anim := true } }

/-- `getFlippedTex(tex, cacheId)`: return the cached mirrored texture when
present; otherwise `cloneFlipX` the source (a fresh handle; throws when the
source is `undefined`) and store it under the key. -/
def getFlippedTex (tex : Option Tex) (cacheId : String) (s : BookState) :
    Option Tex × BookState × Bool :=
  match cacheFind s.flippedCache cacheId with
  | some t => (some t, s, false)
  | none =>
    match tex with
    | none => (none, s, true)
    | some _ =>
      let t : Tex := ⟨s.nextTexId⟩
      (some t,
       { s with nextTexId := s.nextTexId + 1,
                flippedCache := s.flippedCache ++ [(cacheId, t)] },
       false)

/-- The cache key `` `flip:${nextIndex}:left` `` / `` `...:right` `` (the
interpolated index is integral whenever the key is built). -/
def flipCacheKey (nextIndex : ℚ) (side : String) : String :=
  "flip:" ++ toString nextIndex.num ++ ":" ++ side

/-- `flipPage(dir)`.  Preconditions (cover open, no cover animation, no
active flip, `spreadIndex + dir` in `[0, spreads.length)`) or silent no-op.
On acceptance the flip record, reveal mesh, hidden page, pivot and the two
transient turning meshes are set up; reading `spreads[nextIndex]` with a
non-integral `nextIndex` throws a `TypeError` partway through (flag `true`),
leaving the mutations made before the failing property access in place. -/
def flipPage (dir now : ℚ) (s : BookState) : BookState × Bool :=
  if !s.cover.isOpen || s.cover.anim then (s, false)
  else if s.flip.active then (s, false)
  else
    let nextIndex := s.spreadIndex + dir
    if nextIndex < 0 ∨ (s.spreads.length : ℚ) ≤ nextIndex then (s, false)
    else
      let s := { s with flip := { s.flip with active := true, dir := dir, t0 := now } }
      if dir = 1 then
        let s := { s with flip := { s.flip with other := some .leftP,
                                                otherWasVisible := s.leftPageVis } }
        let s := { s with underRightVis := true }
        match jsIndex s.spreads nextIndex with
        | none => (s, true)
        | some nextSpread =>
          let s := { s with underMapR := nextSpread.right,
                            flip := { s.flip with under := some .underR } }
          let s := { s with rightPageVis := false,
                            flip := { s.flip with hidden := some .rightP,
                                                  pivot := some .pivR } }
          let s := { s with pivotRRot := 0 }
          let r := getFlippedTex nextSpread.left (flipCacheKey nextIndex "left") s
          if r.2.2 then (r.2.1, true)
          else
            let s := r.2.1
            let fid := s.nextMeshId
            let bid := s.nextMeshId + 1
            let s := { s with nextMeshId := s.nextMeshId + 2,
                              flip := { s.flip with frontMesh := some fid,
                                                    backMesh := some bid } }
            (addPivotChildren .pivR fid bid s, false)
      else
        let s := { s with flip := { s.flip with other := some .rightP,
                                                otherWasVisible := s.rightPageVis } }
        let s := { s with underLeftVis := true }
        match jsIndex s.spreads nextIndex with
        | none => (s, true)
        | some nextSpread =>
          let s := { s with underMapL := nextSpread.left,
                            flip := { s.flip with under := some .underL } }
          let s := { s with leftPageVis := false,
                            flip := { s.flip with hidden := some .leftP,
                                                  pivot := some .pivL } }
          let s := { s with pivotLRot := 0 }
          let r := getFlippedTex nextSpread.right (flipCacheKey nextIndex "right") s
          if r.2.2 then (r.2.1, true)
          else
            let s := r.2.1
            let fid := s.nextMeshId
            let bid := s.nextMeshId + 1
            let s := { s with nextMeshId := s.nextMeshId + 2,
                              flip := { s.flip with frontMesh := some fid,
                                                    backMesh := some bid } }
            (addPivotChildren .pivL fid bid s, false)

/-- `cleanupFlipMeshes()`: detach the two transient turning meshes from the
pivot, hide the reveal mesh, restore the counterpart page to its recorded
visibility, and null the references. -/
def cleanupFlipMeshes (s : BookState) : BookState :=
  let s :=
    match s.flip.frontMesh with
    | some fid =>
      let s := removePivotChild s.flip.pivot fid s
      { s with flip := { s.flip with frontMesh := none } }
    | none => s
  let s :=
    match s.flip.backMesh with
    | some bid =>
      let s := removePivotChild s.flip.pivot bid s
      { s with flip := { s.flip with backMesh := none } }
    | none => s
  let s :=
    match s.flip.under with
    | some u =>
      let s :=
        match u with
        | .underL => { s with underLeftVis := false }
        | .underR => { s with underRightVis := false }
      { s with flip := { s.flip with under := none } }
    | none => s
  let s :=
    match s.flip.other with
    | some o =>
      let s := setPageVis o s.flip.otherWasVisible s
      { s with flip := { s.flip with other := none } }
    | none => s
  { s with flip := { s.flip with otherWasVisible := true } }

/-- `endFlip()`: hide the counterpart and the hidden page, tear down the
transient meshes, commit `setSpread(spreadIndex + dir)` (a throw there
propagates, skipping the rest), then show the hidden page and the
counterpart again and clear the flip record. -/
def endFlip (s : BookState) : BookState × Bool :=
  let otherToRestore := s.flip.other
  let s := match otherToRestore with
    | some o => setPageVis o false s
    | none => s
  let toReveal := s.flip.hidden
  let s := match toReveal with
    | some h => setPageVis h false s
    | none => s
  let s := cleanupFlipMeshes s
  let r := setSpread (s.spreadIndex + s.flip.dir) s
  if r.2 then (r.1, true)
  else
    let s := r.1
    let s := match toReveal with
      | some h => setPageVis h true s
      | none => s
    let s := match otherToRestore with
      | some o => setPageVis o true s
      | none => s
    ({ s with flip := { s.flip with active := false, dir := 0,
                                    pivot := none, hidden := none } }, false)

/-- The cover-animation section of `update`: hinge and half-fold rotations,
reveal-mesh housekeeping guarded by `!flip.active`, auto-clear at `u ≥ 1`. -/
def updateCover (now : ℚ) (s : BookState) : BookState :=
  if s.cover.anim then
      let u := min 1 ((now - s.cover.t0) / s.coverSpeed)
      let k := easeInOut u
      let a := if s.cover.isOpen then k else 1 - k
      let s := { s with leftCoverRot := lerp (1/2) 0 a,
                        rightCoverRot := lerp (-(1/2)) 0 a,
                        halfLRot := lerp (1/2) 0 a,
                        halfRRot := lerp (-(1/2)) 0 a }
      let s :=
        if !s.flip.active then
          { s with underLeftVis := false, underRightVis := false }
        else s
      if 1 ≤ u then { s with cover := { s.cover with anim := false } } else s
    else
      let s := { s with
        leftCoverRot := if s.cover.isOpen then 0 else 1/2,
        rightCoverRot := if s.cover.isOpen then 0 else -(1/2),
        halfLRot := if s.cover.isOpen then 0 else 1/2,
        halfRRot := if s.cover.isOpen then 0 else -(1/2) }
      if !s.flip.active then
        { s with underLeftVis := false, underRightVis := false }
      else s

/-- `update(dt)`: the cover-animation section followed by the flip section
(counterpart visibility crossover at `k ≤ 0.55`, hinge rotation `±π·k`,
completion via `endFlip` at `u ≥ 1`).  `now` stands for
`performance.now() / 1000`; rotations are in units of π. -/
def update (now : ℚ) (s : BookState) : BookState × Bool :=
  let s := updateCover now s
  match s.flip.pivot with
  | some p =>
    if s.flip.active then
      let u := min 1 ((now - s.flip.t0) / s.flipSpeed)
      let k := easeInOut u
      let s :=
        match s.flip.other with
        | some o =>
          setPageVis o (if k ≤ 11/20 then s.flip.otherWasVisible else false) s
        | none => s
      let s := setPivotRot p ((if s.flip.dir = 1 then -1 else 1) * k) s
      if 1 ≤ u then endFlip s else (s, false)
    else (s, false)
  | none => (s, false)

/-- One externally invocable operation, with its wall-clock argument. -/
inductive Act
  | flipA (dir now : ℚ)
  | toggleA (now : ℚ)
  | updateA (now : ℚ)

/-- Apply an operation, keeping the (possibly partially mutated) state even
when the call threw — a thrown `TypeError` propagates to the host loop and
the object survives. -/
def applyAct : Act → BookState → BookState
  | .flipA d n, s => (flipPage d n s).1
  | .toggleA n, s => toggleCover n s
  | .updateA n, s => (update n s).1

/-- States reachable from a successful construction by any sequence of
`flipPage` / `toggleCover` / `update` calls. -/
inductive Reachable (cfg : BookConfig) : BookState → Prop
  | init (s : BookState) : mkBook cfg = .ok s → Reachable cfg s
  | step (a : Act) (s : BookState) : Reachable cfg s → Reachable cfg (applyAct a s)


/-! ### Basic facts about the helper functions -/

theorem jsIndex_natCast {α : Type} (l : List α) (m : ℕ) :
    jsIndex l (m : ℚ) = l.get? m := by
  simp [jsIndex]

theorem jsIndex_eq_some {α : Type} {l : List α} {i : ℚ} {a : α}
    (h : jsIndex l i = some a) : ∃ m : ℕ, i = (m : ℚ) ∧ l.get? m = some a := by
  unfold jsIndex at h
  rcases Decidable.em (i.den = 1 ∧ 0 ≤ i.num) with hc | hc
  · rw [if_pos hc] at h
    refine ⟨i.num.toNat, ?_, h⟩
    have h1 : ((i.num.toNat : ℕ) : ℤ) = i.num := Int.toNat_of_nonneg hc.2
    have h2 : ((i.num.toNat : ℕ) : ℚ) = ((i.num : ℤ) : ℚ) := by exact_mod_cast h1
    rw [h2, Rat.coe_int_num_of_den_eq_one hc.1]
  · rw [if_neg hc] at h
    exact absurd h (by simp)

theorem mclamp_eq_self {v hi : ℚ} (h0 : 0 ≤ v) (h1 : v ≤ hi) :
    mclamp v 0 hi = v := by
  unfold mclamp
  rw [min_eq_right h1, max_eq_right h0]

theorem easeInOut_one : easeInOut 1 = 1 := by norm_num [easeInOut]

theorem cacheFind_append_some {c : List (String × Tex)} {key : String} {t : Tex}
    (h : cacheFind c key = some t) (l : List (String × Tex)) :
    cacheFind (c ++ l) key = some t := by
  induction c with
  | nil => simp [cacheFind] at h
  | cons p rest ih =>
    rcases p with ⟨k, v⟩
    by_cases hk : k = key
    · simpa [cacheFind, hk] using h
    · rw [List.cons_append]
      simp only [cacheFind, if_neg hk] at h ⊢
      exact ih h


theorem setSpread_natCast (s : BookState) (m : ℕ) (sp : Spread)
    (hm : m < s.spreads.length) (hsp : s.spreads.get? m = some sp) :
    setSpread (m : ℚ) s =
      ({ s with spreadIndex := (m : ℚ), leftMap := sp.left, rightMap := sp.right },
       false) := by
  have hc : mclamp (m : ℚ) 0 ((s.spreads.length : ℚ) - 1) = (m : ℚ) := by
    apply mclamp_eq_self (by positivity)
    have hle : (m : ℚ) + 1 ≤ (s.spreads.length : ℚ) := by
      exact_mod_cast Nat.succ_le_of_lt hm
    linarith
  unfold setSpread
  rw [hc]
  dsimp only
  rw [jsIndex_natCast, hsp]

/-! ### The cover section of `update` leaves the flip machinery alone -/

theorem updateCover_flip (now : ℚ) (s : BookState) :
    (updateCover now s).flip = s.flip := by
  unfold updateCover
  dsimp only
  split <;> (repeat' split) <;> rfl

theorem updateCover_spreads (now : ℚ) (s : BookState) :
    (updateCover now s).spreads = s.spreads := by
  unfold updateCover
  dsimp only
  split <;> (repeat' split) <;> rfl

theorem updateCover_spreadIndex (now : ℚ) (s : BookState) :
    (updateCover now s).spreadIndex = s.spreadIndex := by
  unfold updateCover
  dsimp only
  split <;> (repeat' split) <;> rfl

theorem updateCover_cache (now : ℚ) (s : BookState) :
    (updateCover now s).flippedCache = s.flippedCache := by
  unfold updateCover
  dsimp only
  split <;> (repeat' split) <;> rfl

theorem updateCover_leftPageVis (now : ℚ) (s : BookState) :
    (updateCover now s).leftPageVis = s.leftPageVis := by
  unfold updateCover
  dsimp only
  split <;> (repeat' split) <;> rfl

theorem updateCover_rightPageVis (now : ℚ) (s : BookState) :
    (updateCover now s).rightPageVis = s.rightPageVis := by
  unfold updateCover
  dsimp only
  split <;> (repeat' split) <;> rfl

theorem updateCover_pivotLChildren (now : ℚ) (s : BookState) :
    (updateCover now s).pivotLChildren = s.pivotLChildren := by
  unfold updateCover
  dsimp only
  split <;> (repeat' split) <;> rfl

theorem updateCover_pivotRChildren (now : ℚ) (s : BookState) :
    (updateCover now s).pivotRChildren = s.pivotRChildren := by
  unfold updateCover
  dsimp only
  split <;> (repeat' split) <;> rfl

theorem updateCover_pivotLRot (now : ℚ) (s : BookState) :
    (updateCover now s).pivotLRot = s.pivotLRot := by
  unfold updateCover
  dsimp only
  split <;> (repeat' split) <;> rfl

theorem updateCover_pivotRRot (now : ℚ) (s : BookState) :
    (updateCover now s).pivotRRot = s.pivotRRot := by
  unfold updateCover
  dsimp only
  split <;> (repeat' split) <;> rfl

theorem updateCover_nextMeshId (now : ℚ) (s : BookState) :
    (updateCover now s).nextMeshId = s.nextMeshId := by
  unfold updateCover
  dsimp only
  split <;> (repeat' split) <;> rfl

theorem updateCover_nextTexId (now : ℚ) (s : BookState) :
    (updateCover now s).nextTexId = s.nextTexId := by
  unfold updateCover
  dsimp only
  split <;> (repeat' split) <;> rfl

theorem updateCover_underMapL (now : ℚ) (s : BookState) :
    (updateCover now s).underMapL = s.underMapL := by
  unfold updateCover
  dsimp only
  split <;> (repeat' split) <;> rfl

theorem updateCover_underMapR (now : ℚ) (s : BookState) :
    (updateCover now s).underMapR = s.underMapR := by
  unfold updateCover
  dsimp only
  split <;> (repeat' split) <;> rfl

theorem updateCover_leftMap (now : ℚ) (s : BookState) :
    (updateCover now s).leftMap = s.leftMap := by
  unfold updateCover
  dsimp only
  split <;> (repeat' split) <;> rfl

theorem updateCover_rightMap (now : ℚ) (s : BookState) :
    (updateCover now s).rightMap = s.rightMap := by
  unfold updateCover
  dsimp only
  split <;> (repeat' split) <;> rfl

theorem updateCover_coverSpeed (now : ℚ) (s : BookState) :
    (updateCover now s).coverSpeed = s.coverSpeed := by
  unfold updateCover
  dsimp only
  split <;> (repeat' split) <;> rfl

theorem updateCover_flipSpeed (now : ℚ) (s : BookState) :
    (updateCover now s).flipSpeed = s.flipSpeed := by
  unfold updateCover
  dsimp only
  split <;> (repeat' split) <;> rfl

theorem updateCover_isOpen (now : ℚ) (s : BookState) :
    (updateCover now s).cover.isOpen = s.cover.isOpen := by
  unfold updateCover
  dsimp only
  split <;> (repeat' split) <;> rfl

theorem updateCover_coverT0 (now : ℚ) (s : BookState) :
    (updateCover now s).cover.t0 = s.cover.t0 := by
  unfold updateCover
  dsimp only
  split <;> (repeat' split) <;> rfl

theorem updateCover_underLeftVis_of_active (now : ℚ) (s : BookState)
    (h : s.flip.active = true) :
    (updateCover now s).underLeftVis = s.underLeftVis := by
  unfold updateCover
  dsimp only
  split <;> (repeat' split) <;> first | rfl | simp_all

theorem updateCover_underRightVis_of_active (now : ℚ) (s : BookState)
    (h : s.flip.active = true) :
    (updateCover now s).underRightVis = s.underRightVis := by
  unfold updateCover
  dsimp only
  split <;> (repeat' split) <;> first | rfl | simp_all

theorem updateCover_anim_keep (now : ℚ) (s : BookState)
    (h : s.cover.anim = false) :
    (updateCover now s).cover.anim = false := by
  unfold updateCover
  dsimp only
  split <;> (repeat' split) <;> first | rfl | simp_all

theorem updateCover_anim_clear (now : ℚ) (s : BookState)
    (h : s.cover.anim = true) (hd : 0 < s.coverSpeed)
    (ht : s.cover.t0 + s.coverSpeed ≤ now) :
    (updateCover now s).cover.anim = false := by
  have hu : (1 : ℚ) ≤ min 1 ((now - s.cover.t0) / s.coverSpeed) := by
    refine le_min le_rfl ?_
    rw [one_le_div hd]
    linarith
  unfold updateCover
  rw [if_pos h]
  dsimp only
  rw [if_pos hu]

/-! ### Completing a turn: `endFlip` on a properly shaped flip state -/

set_option maxHeartbeats 2000000 in
theorem endFlip_eq_fwd (s : BookState) (m : ℕ) (sp : Spread) (fid bid : Nat)
    (howv : s.flip.otherWasVisible = true)
    (hpiv : s.flip.pivot = some .pivR) (hhid : s.flip.hidden = some .rightP)
    (hund : s.flip.under = some .underR) (hoth : s.flip.other = some .leftP)
    (hfm : s.flip.frontMesh = some fid) (hbm : s.flip.backMesh = some bid)
    (hch : s.pivotRChildren = [fid, bid])
    (hmeq : s.spreadIndex + s.flip.dir = (m : ℚ))
    (hget : s.spreads.get? m = some sp) :
    endFlip s =
      ({ s with spreadIndex := (m : ℚ),
                leftMap := sp.left, rightMap := sp.right,
                leftPageVis := true, rightPageVis := true,
                underRightVis := false,
                pivotRChildren := [],
                flip := { active := false, dir := 0, t0 := s.flip.t0,
                          pivot := none, hidden := none, frontMesh := none,
                          backMesh := none, under := none, other := none,
                          otherWasVisible := true } }, false) := by
  have hlt : m < s.spreads.length := by
    by_contra hle
    rw [List.get?_eq_none.mpr (le_of_not_lt hle)] at hget
    exact Option.noConfusion hget
  have hc : mclamp (m : ℚ) 0 ((s.spreads.length : ℚ) - 1) = (m : ℚ) := by
    apply mclamp_eq_self (by positivity)
    have hle : (m : ℚ) + 1 ≤ (s.spreads.length : ℚ) := by
      exact_mod_cast Nat.succ_le_of_lt hlt
    linarith
  simp only [endFlip, cleanupFlipMeshes, setSpread, setPageVis, removePivotChild,
             hoth, hhid, hpiv, hund, hfm, hbm, howv, hch, hmeq, hc,
             jsIndex_natCast, hget, List.erase_cons_head]
  simp

set_option maxHeartbeats 2000000 in
theorem endFlip_eq_bwd (s : BookState) (m : ℕ) (sp : Spread) (fid bid : Nat)
    (howv : s.flip.otherWasVisible = true)
    (hpiv : s.flip.pivot = some .pivL) (hhid : s.flip.hidden = some .leftP)
    (hund : s.flip.under = some .underL) (hoth : s.flip.other = some .rightP)
    (hfm : s.flip.frontMesh = some fid) (hbm : s.flip.backMesh = some bid)
    (hch : s.pivotLChildren = [fid, bid])
    (hmeq : s.spreadIndex + s.flip.dir = (m : ℚ))
    (hget : s.spreads.get? m = some sp) :
    endFlip s =
      ({ s with spreadIndex := (m : ℚ),
                leftMap := sp.left, rightMap := sp.right,
                leftPageVis := true, rightPageVis := true,
                underLeftVis := false,
                pivotLChildren := [],
                flip := { active := false, dir := 0, t0 := s.flip.t0,
                          pivot := none, hidden := none, frontMesh := none,
                          backMesh := none, under := none, other := none,
                          otherWasVisible := true } }, false) := by
  have hlt : m < s.spreads.length := by
    by_contra hle
    rw [List.get?_eq_none.mpr (le_of_not_lt hle)] at hget
    exact Option.noConfusion hget
  have hc : mclamp (m : ℚ) 0 ((s.spreads.length : ℚ) - 1) = (m : ℚ) := by
    apply mclamp_eq_self (by positivity)
    have hle : (m : ℚ) + 1 ≤ (s.spreads.length : ℚ) := by
      exact_mod_cast Nat.succ_le_of_lt hlt
    linarith
  simp only [endFlip, cleanupFlipMeshes, setSpread, setPageVis, removePivotChild,
             hoth, hhid, hpiv, hund, hfm, hbm, howv, hch, hmeq, hc,
             jsIndex_natCast, hget, List.erase_cons_head]
  simp

/-! ### `flipPage`: rejection, acceptance and the mid-construction throw -/

theorem jsIndex_none_den {α : Type} {l : List α} {i : ℚ} (h : jsIndex l i = none)
    (h0 : 0 ≤ i) (hlen : i < (l.length : ℚ)) : i.den ≠ 1 := by
  intro hden
  unfold jsIndex at h
  rw [if_pos ⟨hden, Rat.num_nonneg.mpr h0⟩, List.get?_eq_none] at h
  have hiq : ((i.num.toNat : ℕ) : ℚ) = i := by
    have h1 : ((i.num.toNat : ℕ) : ℤ) = i.num := Int.toNat_of_nonneg (Rat.num_nonneg.mpr h0)
    have h2 : ((i.num.toNat : ℕ) : ℚ) = ((i.num : ℤ) : ℚ) := by exact_mod_cast h1
    rw [h2, Rat.coe_int_num_of_den_eq_one hden]
  have : (i.num.toNat : ℚ) < (l.length : ℚ) := by rw [hiq]; exact hlen
  have : i.num.toNat < l.length := by exact_mod_cast this
  omega

theorem flipPage_reject (s : BookState) (dir now : ℚ)
    (h : s.cover.isOpen = false ∨ s.cover.anim = true ∨ s.flip.active = true ∨
         s.spreadIndex + dir < 0 ∨ (s.spreads.length : ℚ) ≤ s.spreadIndex + dir) :
    flipPage dir now s = (s, false) := by
  unfold flipPage
  dsimp only
  split
  · rfl
  · split
    · rfl
    · split
      · rfl
      · rcases h with h | h | h | h | h <;> simp_all

theorem flipPage_accept_fwd (s : BookState) (now : ℚ) (sp : Spread)
    (hopen : s.cover.isOpen = true) (hanim : s.cover.anim = false)
    (hact : s.flip.active = false)
    (hsp : jsIndex s.spreads (s.spreadIndex + 1) = some sp)
    (htl : sp.left.isSome) :
    (flipPage 1 now s).2 = false ∧
    (flipPage 1 now s).1.flip.active = true ∧
    (flipPage 1 now s).1.flip.dir = 1 ∧
    (flipPage 1 now s).1.flip.t0 = now ∧
    (flipPage 1 now s).1.flip.pivot = some .pivR ∧
    (flipPage 1 now s).1.flip.hidden = some .rightP ∧
    (flipPage 1 now s).1.flip.under = some .underR ∧
    (flipPage 1 now s).1.flip.other = some .leftP ∧
    (flipPage 1 now s).1.flip.frontMesh = some s.nextMeshId ∧
    (flipPage 1 now s).1.flip.backMesh = some (s.nextMeshId + 1) ∧
    (flipPage 1 now s).1.flip.otherWasVisible = s.leftPageVis ∧
    (flipPage 1 now s).1.spreads = s.spreads ∧
    (flipPage 1 now s).1.spreadIndex = s.spreadIndex ∧
    (flipPage 1 now s).1.coverSpeed = s.coverSpeed ∧
    (flipPage 1 now s).1.flipSpeed = s.flipSpeed ∧
    (flipPage 1 now s).1.cover = s.cover ∧
    (flipPage 1 now s).1.underRightVis = true ∧
    (flipPage 1 now s).1.underMapR = sp.right ∧
    (flipPage 1 now s).1.underLeftVis = s.underLeftVis ∧
    (flipPage 1 now s).1.underMapL = s.underMapL ∧
    (flipPage 1 now s).1.rightPageVis = false ∧
    (flipPage 1 now s).1.leftPageVis = s.leftPageVis ∧
    (flipPage 1 now s).1.pivotRChildren =
      s.pivotRChildren ++ [s.nextMeshId, s.nextMeshId + 1] ∧
    (flipPage 1 now s).1.pivotLChildren = s.pivotLChildren := by
  obtain ⟨m, hmeq, hget⟩ := jsIndex_eq_some hsp
  have hlt : m < s.spreads.length := by
    by_contra hle
    rw [List.get?_eq_none.mpr (le_of_not_lt hle)] at hget
    exact Option.noConfusion hget
  have h0 : ¬(s.spreadIndex + 1 < 0) := by
    rw [hmeq]; exact not_lt.mpr (by positivity)
  have h2 : ¬((s.spreads.length : ℚ) ≤ s.spreadIndex + 1) := by
    rw [hmeq]; exact not_le.mpr (by exact_mod_cast hlt)
  obtain ⟨tl, htl'⟩ := Option.isSome_iff_exists.mp htl
  unfold flipPage
  rw [hopen, hanim, hact]
  dsimp only
  rw [if_neg (by simp), if_neg (by simp), if_neg (not_or.mpr ⟨h0, h2⟩), if_pos rfl,
      hsp]
  simp only [getFlippedTex, htl']
  cases hcf : cacheFind s.flippedCache (flipCacheKey (s.spreadIndex + 1) "left") with
  | some t => simp [hcf, addPivotChildren]
  | none => simp [hcf, addPivotChildren]

theorem flipPage_accept_bwd (s : BookState) (dir now : ℚ) (sp : Spread)
    (hdir : ¬(dir = 1))
    (hopen : s.cover.isOpen = true) (hanim : s.cover.anim = false)
    (hact : s.flip.active = false)
    (hsp : jsIndex s.spreads (s.spreadIndex + dir) = some sp)
    (htr : sp.right.isSome) :
    (flipPage dir now s).2 = false ∧
    (flipPage dir now s).1.flip.active = true ∧
    (flipPage dir now s).1.flip.dir = dir ∧
    (flipPage dir now s).1.flip.t0 = now ∧
    (flipPage dir now s).1.flip.pivot = some .pivL ∧
    (flipPage dir now s).1.flip.hidden = some .leftP ∧
    (flipPage dir now s).1.flip.under = some .underL ∧
    (flipPage dir now s).1.flip.other = some .rightP ∧
    (flipPage dir now s).1.flip.frontMesh = some s.nextMeshId ∧
    (flipPage dir now s).1.flip.backMesh = some (s.nextMeshId + 1) ∧
    (flipPage dir now s).1.flip.otherWasVisible = s.rightPageVis ∧
    (flipPage dir now s).1.spreads = s.spreads ∧
    (flipPage dir now s).1.spreadIndex = s.spreadIndex ∧
    (flipPage dir now s).1.coverSpeed = s.coverSpeed ∧
    (flipPage dir now s).1.flipSpeed = s.flipSpeed ∧
    (flipPage dir now s).1.cover = s.cover ∧
    (flipPage dir now s).1.underLeftVis = true ∧
    (flipPage dir now s).1.underMapL = sp.left ∧
    (flipPage dir now s).1.underRightVis = s.underRightVis ∧
    (flipPage dir now s).1.underMapR = s.underMapR ∧
    (flipPage dir now s).1.leftPageVis = false ∧
    (flipPage dir now s).1.rightPageVis = s.rightPageVis ∧
    (flipPage dir now s).1.pivotLChildren =
      s.pivotLChildren ++ [s.nextMeshId, s.nextMeshId + 1] ∧
    (flipPage dir now s).1.pivotRChildren = s.pivotRChildren := by
  obtain ⟨m, hmeq, hget⟩ := jsIndex_eq_some hsp
  have hlt : m < s.spreads.length := by
    by_contra hle
    rw [List.get?_eq_none.mpr (le_of_not_lt hle)] at hget
    exact Option.noConfusion hget
  have h0 : ¬(s.spreadIndex + dir < 0) := by
    rw [hmeq]; exact not_lt.mpr (by positivity)
  have h2 : ¬((s.spreads.length : ℚ) ≤ s.spreadIndex + dir) := by
    rw [hmeq]; exact not_le.mpr (by exact_mod_cast hlt)
  obtain ⟨tr, htr'⟩ := Option.isSome_iff_exists.mp htr
  unfold flipPage
  rw [hopen, hanim, hact]
  dsimp only
  rw [if_neg (by simp), if_neg (by simp), if_neg (not_or.mpr ⟨h0, h2⟩), if_neg hdir,
      hsp]
  simp only [getFlippedTex, htr']
  cases hcf : cacheFind s.flippedCache (flipCacheKey (s.spreadIndex + dir) "right") with
  | some t => simp [hcf, addPivotChildren]
  | none => simp [hcf, addPivotChildren]

theorem flipPage_throw_fwd (s : BookState) (now : ℚ)
    (hopen : s.cover.isOpen = true) (hanim : s.cover.anim = false)
    (hact : s.flip.active = false)
    (hnil : jsIndex s.spreads (s.spreadIndex + 1) = none)
    (h0 : ¬(s.spreadIndex + 1 < 0))
    (h2 : ¬((s.spreads.length : ℚ) ≤ s.spreadIndex + 1)) :
    flipPage 1 now s =
      ({ s with
          underRightVis := true,
          flip := { s.flip with
                      active := true, dir := 1, t0 := now,
                      other := some .leftP,
                      otherWasVisible := s.leftPageVis } }, true) := by
  unfold flipPage
  rw [hopen, hanim, hact]
  dsimp only
  rw [if_neg (by simp), if_neg (by simp), if_neg (not_or.mpr ⟨h0, h2⟩), if_pos rfl,
      hnil]

theorem flipPage_throw_bwd (s : BookState) (dir now : ℚ)
    (hdir : ¬(dir = 1))
    (hopen : s.cover.isOpen = true) (hanim : s.cover.anim = false)
    (hact : s.flip.active = false)
    (hnil : jsIndex s.spreads (s.spreadIndex + dir) = none)
    (h0 : ¬(s.spreadIndex + dir < 0))
    (h2 : ¬((s.spreads.length : ℚ) ≤ s.spreadIndex + dir)) :
    flipPage dir now s =
      ({ s with
          underLeftVis := true,
          flip := { s.flip with
                      active := true, dir := dir, t0 := now,
                      other := some .rightP,
                      otherWasVisible := s.rightPageVis } }, true) := by
  unfold flipPage
  rw [hopen, hanim, hact]
  dsimp only
  rw [if_neg (by simp), if_neg (by simp), if_neg (not_or.mpr ⟨h0, h2⟩), if_neg hdir,
      hnil]

/-! ### `update`: the three paths of the flip section -/

theorem setPageVis_flip (o : PageRef) (b : Bool) (s : BookState) :
    (setPageVis o b s).flip = s.flip := by
  cases o <;> rfl

theorem setPivotRot_flip (p : PivotRef) (r : ℚ) (s : BookState) :
    (setPivotRot p r s).flip = s.flip := by
  cases p <;> rfl

theorem setPageVis_spreads (o : PageRef) (b : Bool) (s : BookState) :
    (setPageVis o b s).spreads = s.spreads := by cases o <;> rfl

theorem setPageVis_spreadIndex (o : PageRef) (b : Bool) (s : BookState) :
    (setPageVis o b s).spreadIndex = s.spreadIndex := by cases o <;> rfl

theorem setPageVis_cache (o : PageRef) (b : Bool) (s : BookState) :
    (setPageVis o b s).flippedCache = s.flippedCache := by cases o <;> rfl

theorem setPageVis_cover (o : PageRef) (b : Bool) (s : BookState) :
    (setPageVis o b s).cover = s.cover := by cases o <;> rfl

theorem setPageVis_underLeftVis (o : PageRef) (b : Bool) (s : BookState) :
    (setPageVis o b s).underLeftVis = s.underLeftVis := by cases o <;> rfl

theorem setPageVis_underRightVis (o : PageRef) (b : Bool) (s : BookState) :
    (setPageVis o b s).underRightVis = s.underRightVis := by cases o <;> rfl

theorem setPageVis_underMapL (o : PageRef) (b : Bool) (s : BookState) :
    (setPageVis o b s).underMapL = s.underMapL := by cases o <;> rfl

theorem setPageVis_underMapR (o : PageRef) (b : Bool) (s : BookState) :
    (setPageVis o b s).underMapR = s.underMapR := by cases o <;> rfl

theorem setPageVis_pivotLChildren (o : PageRef) (b : Bool) (s : BookState) :
    (setPageVis o b s).pivotLChildren = s.pivotLChildren := by cases o <;> rfl

theorem setPageVis_pivotRChildren (o : PageRef) (b : Bool) (s : BookState) :
    (setPageVis o b s).pivotRChildren = s.pivotRChildren := by cases o <;> rfl

theorem setPageVis_leftPageVis_right (b : Bool) (s : BookState) :
    (setPageVis .rightP b s).leftPageVis = s.leftPageVis := rfl

theorem setPageVis_rightPageVis_left (b : Bool) (s : BookState) :
    (setPageVis .leftP b s).rightPageVis = s.rightPageVis := rfl

theorem setPivotRot_spreads (p : PivotRef) (r : ℚ) (s : BookState) :
    (setPivotRot p r s).spreads = s.spreads := by cases p <;> rfl

theorem setPivotRot_spreadIndex (p : PivotRef) (r : ℚ) (s : BookState) :
    (setPivotRot p r s).spreadIndex = s.spreadIndex := by cases p <;> rfl

theorem setPivotRot_cache (p : PivotRef) (r : ℚ) (s : BookState) :
    (setPivotRot p r s).flippedCache = s.flippedCache := by cases p <;> rfl

theorem setPivotRot_cover (p : PivotRef) (r : ℚ) (s : BookState) :
    (setPivotRot p r s).cover = s.cover := by cases p <;> rfl

theorem setPivotRot_underLeftVis (p : PivotRef) (r : ℚ) (s : BookState) :
    (setPivotRot p r s).underLeftVis = s.underLeftVis := by cases p <;> rfl

theorem setPivotRot_underRightVis (p : PivotRef) (r : ℚ) (s : BookState) :
    (setPivotRot p r s).underRightVis = s.underRightVis := by cases p <;> rfl

theorem setPivotRot_underMapL (p : PivotRef) (r : ℚ) (s : BookState) :
    (setPivotRot p r s).underMapL = s.underMapL := by cases p <;> rfl

theorem setPivotRot_underMapR (p : PivotRef) (r : ℚ) (s : BookState) :
    (setPivotRot p r s).underMapR = s.underMapR := by cases p <;> rfl

theorem setPivotRot_pivotLChildren (p : PivotRef) (r : ℚ) (s : BookState) :
    (setPivotRot p r s).pivotLChildren = s.pivotLChildren := by cases p <;> rfl

theorem setPivotRot_pivotRChildren (p : PivotRef) (r : ℚ) (s : BookState) :
    (setPivotRot p r s).pivotRChildren = s.pivotRChildren := by cases p <;> rfl

theorem setPivotRot_leftPageVis (p : PivotRef) (r : ℚ) (s : BookState) :
    (setPivotRot p r s).leftPageVis = s.leftPageVis := by cases p <;> rfl

theorem setPivotRot_rightPageVis (p : PivotRef) (r : ℚ) (s : BookState) :
    (setPivotRot p r s).rightPageVis = s.rightPageVis := by cases p <;> rfl

theorem update_eq_of_pivot_none (now : ℚ) (s : BookState)
    (hp : s.flip.pivot = none) :
    update now s = (updateCover now s, false) := by
  unfold update
  dsimp only
  rw [updateCover_flip, hp]

theorem update_eq_of_inactive (now : ℚ) (s : BookState)
    (ha : s.flip.active = false) :
    update now s = (updateCover now s, false) := by
  unfold update
  dsimp only
  rw [updateCover_flip]
  cases hp : s.flip.pivot with
  | none => rfl
  | some p =>
    dsimp only
    rw [ha]
    simp

theorem update_advance (now : ℚ) (s : BookState) (p : PivotRef) (o : PageRef)
    (ha : s.flip.active = true) (hp : s.flip.pivot = some p)
    (ho : s.flip.other = some o)
    (hu : ¬((1 : ℚ) ≤ min 1 ((now - s.flip.t0) / s.flipSpeed))) :
    update now s =
      (setPivotRot p ((if s.flip.dir = 1 then -1 else 1) *
          easeInOut (min 1 ((now - s.flip.t0) / s.flipSpeed)))
        (setPageVis o
          (if easeInOut (min 1 ((now - s.flip.t0) / s.flipSpeed)) ≤ 11/20
            then s.flip.otherWasVisible else false)
          (updateCover now s)), false) := by
  unfold update
  dsimp only
  rw [updateCover_flip, updateCover_flipSpeed, hp]
  dsimp only
  rw [ha]
  rw [if_pos rfl, ho]
  dsimp only
  rw [setPageVis_flip, updateCover_flip]
  rw [if_neg hu]

theorem update_eq_endFlip (now : ℚ) (s : BookState) (p : PivotRef) (o : PageRef)
    (ha : s.flip.active = true) (hp : s.flip.pivot = some p)
    (ho : s.flip.other = some o)
    (hu : (1 : ℚ) ≤ min 1 ((now - s.flip.t0) / s.flipSpeed)) :
    update now s =
      endFlip (setPivotRot p ((if s.flip.dir = 1 then -1 else 1) *
          easeInOut (min 1 ((now - s.flip.t0) / s.flipSpeed)))
        (setPageVis o
          (if easeInOut (min 1 ((now - s.flip.t0) / s.flipSpeed)) ≤ 11/20
            then s.flip.otherWasVisible else false)
          (updateCover now s))) := by
  unfold update
  dsimp only
  rw [updateCover_flip, updateCover_flipSpeed, hp]
  dsimp only
  rw [ha]
  rw [if_pos rfl, ho]
  dsimp only
  rw [setPageVis_flip, updateCover_flip]
  rw [if_pos hu]


/-! ### The reachability invariant -/

/-- The shape of a properly constructed in-flight turn: the flip record,
reveal mesh, hidden page and transient meshes are all wired for the turn's
direction, and the target index addresses an existing spread. -/
def FlipShape (s : BookState) : Prop :=
  ∃ sp, jsIndex s.spreads (s.spreadIndex + s.flip.dir) = some sp ∧
  ∃ fid bid, s.flip.frontMesh = some fid ∧ s.flip.backMesh = some bid ∧
  (if s.flip.dir = 1 then
      s.flip.pivot = some .pivR ∧ s.flip.hidden = some .rightP ∧
      s.flip.under = some .underR ∧ s.flip.other = some .leftP ∧
      s.underRightVis = true ∧ s.underMapR = sp.right ∧ s.rightPageVis = false ∧
      s.pivotRChildren = [fid, bid] ∧ s.pivotLChildren = []
    else
      s.flip.pivot = some .pivL ∧ s.flip.hidden = some .leftP ∧
      s.flip.under = some .underL ∧ s.flip.other = some .rightP ∧
      s.underLeftVis = true ∧ s.underMapL = sp.left ∧ s.leftPageVis = false ∧
      s.pivotLChildren = [fid, bid] ∧ s.pivotRChildren = [])

/-- Invariant satisfied by every reachable state of a validly constructed
book. -/
structure BookInv (s : BookState) : Prop where
  spreadsOk : ∀ sp ∈ s.spreads, sp.left.isSome ∧ sp.right.isSome
  idxOk : ∃ m : ℕ, s.spreadIndex = (m : ℚ) ∧ m < s.spreads.length
  owv : s.flip.otherWasVisible = true
  inact : s.flip.active = false →
    s.leftPageVis = true ∧ s.rightPageVis = true ∧ s.flip.pivot = none ∧
    s.flip.hidden = none ∧ s.flip.frontMesh = none ∧ s.flip.backMesh = none ∧
    s.flip.under = none ∧ s.flip.other = none ∧
    s.pivotLChildren = [] ∧ s.pivotRChildren = []
  actCover : s.flip.active = true → s.cover.anim = false
  actBroken : s.flip.active = true → s.flip.pivot = none →
    s.flip.hidden = none ∧ s.flip.frontMesh = none ∧ s.flip.backMesh = none ∧
    s.flip.under = none ∧ s.pivotLChildren = [] ∧ s.pivotRChildren = [] ∧
    (s.spreadIndex + s.flip.dir).den ≠ 1
  actProper : s.flip.active = true → s.flip.pivot ≠ none → FlipShape s

set_option maxHeartbeats 2000000 in
theorem update_complete_core (s : BookState) (now : ℚ) (hInv : BookInv s)
    (ha : s.flip.active = true) (p : PivotRef) (hp : s.flip.pivot = some p)
    (hu : (1 : ℚ) ≤ min 1 ((now - s.flip.t0) / s.flipSpeed)) :
    (update now s).2 = false ∧
    (update now s).1.spreadIndex = s.spreadIndex + s.flip.dir ∧
    (update now s).1.flip.active = false ∧
    (update now s).1.flip.pivot = none ∧
    (update now s).1.flip.hidden = none ∧
    (update now s).1.flip.frontMesh = none ∧
    (update now s).1.flip.backMesh = none ∧
    (update now s).1.flip.under = none ∧
    (update now s).1.flip.other = none ∧
    (update now s).1.flip.otherWasVisible = true ∧
    (update now s).1.leftPageVis = true ∧
    (update now s).1.rightPageVis = true ∧
    (update now s).1.pivotLChildren = [] ∧
    (update now s).1.pivotRChildren = [] ∧
    (∀ u, s.flip.under = some u → underVis (update now s).1 u = false) ∧
    (update now s).1.flippedCache = s.flippedCache ∧
    (update now s).1.spreads = s.spreads ∧
    (∃ m : ℕ, (update now s).1.spreadIndex = (m : ℚ) ∧ m < s.spreads.length) ∧
    pivotRot (update now s).1 p =
      (if s.flip.dir = 1 then -1 else 1) *
        easeInOut (min 1 ((now - s.flip.t0) / s.flipSpeed)) := by
  have hne : s.flip.pivot ≠ none := by rw [hp]; simp
  obtain ⟨sp, hsp, fid, bid, hfm, hbm, hif⟩ := hInv.actProper ha hne
  obtain ⟨m, hmeq, hget⟩ := jsIndex_eq_some hsp
  have hmlt : m < s.spreads.length := by
    by_contra hle
    rw [List.get?_eq_none.mpr (le_of_not_lt hle)] at hget
    exact Option.noConfusion hget
  by_cases hdir : s.flip.dir = 1
  · rw [if_pos hdir] at hif
    obtain ⟨hpiv, hhid, hund, hoth, hurv, humr, hrpv, hchR, hchL⟩ := hif
    have hpp : p = PivotRef.pivR := by
      have hpiv2 := hpiv
      rw [hp] at hpiv2; exact Option.some.inj hpiv2
    subst hpp
    rw [update_eq_endFlip now s .pivR .leftP ha hpiv hoth hu]
    set s2 : BookState := setPivotRot .pivR ((if s.flip.dir = 1 then -1 else 1) *
        easeInOut (min 1 ((now - s.flip.t0) / s.flipSpeed)))
      (setPageVis .leftP
        (if easeInOut (min 1 ((now - s.flip.t0) / s.flipSpeed)) ≤ 11/20
          then s.flip.otherWasVisible else false)
        (updateCover now s)) with hs2
    have h2flip : s2.flip = s.flip := by
      rw [hs2, setPivotRot_flip, setPageVis_flip, updateCover_flip]
    have h2idx : s2.spreadIndex = s.spreadIndex := by
      rw [hs2]; simp [setPivotRot, setPageVis, updateCover_spreadIndex]
    have h2spreads : s2.spreads = s.spreads := by
      rw [hs2]; simp [setPivotRot, setPageVis, updateCover_spreads]
    have h2cache : s2.flippedCache = s.flippedCache := by
      rw [hs2]; simp [setPivotRot, setPageVis, updateCover_cache]
    have h2chR : s2.pivotRChildren = [fid, bid] := by
      rw [hs2]; simp [setPivotRot, setPageVis, updateCover_pivotRChildren, hchR]
    have h2chL : s2.pivotLChildren = [] := by
      rw [hs2]; simp [setPivotRot, setPageVis, updateCover_pivotLChildren, hchL]
    rw [endFlip_eq_fwd s2 m sp fid bid (by rw [h2flip]; exact hInv.owv)
        (by rw [h2flip]; exact hpiv) (by rw [h2flip]; exact hhid)
        (by rw [h2flip]; exact hund) (by rw [h2flip]; exact hoth)
        (by rw [h2flip]; exact hfm) (by rw [h2flip]; exact hbm)
        h2chR (by rw [h2idx, h2flip]; exact hmeq) (by rw [h2spreads]; exact hget)]
    refine ⟨rfl, hmeq.symm, rfl, rfl, rfl, rfl, rfl, rfl, rfl, rfl, rfl, rfl,
            h2chL, rfl, ?_, h2cache, h2spreads, ⟨m, rfl, hmlt⟩, rfl⟩
    intro u hu'
    rw [hund] at hu'
    injection hu' with h
    subst h
    rfl
  · rw [if_neg hdir] at hif
    obtain ⟨hpiv, hhid, hund, hoth, hulv, huml, hlpv, hchL, hchR⟩ := hif
    have hpp : p = PivotRef.pivL := by
      have hpiv2 := hpiv
      rw [hp] at hpiv2; exact Option.some.inj hpiv2
    subst hpp
    rw [update_eq_endFlip now s .pivL .rightP ha hpiv hoth hu]
    set s2 : BookState := setPivotRot .pivL ((if s.flip.dir = 1 then -1 else 1) *
        easeInOut (min 1 ((now - s.flip.t0) / s.flipSpeed)))
      (setPageVis .rightP
        (if easeInOut (min 1 ((now - s.flip.t0) / s.flipSpeed)) ≤ 11/20
          then s.flip.otherWasVisible else false)
        (updateCover now s)) with hs2
    have h2flip : s2.flip = s.flip := by
      rw [hs2, setPivotRot_flip, setPageVis_flip, updateCover_flip]
    have h2idx : s2.spreadIndex = s.spreadIndex := by
      rw [hs2]; simp [setPivotRot, setPageVis, updateCover_spreadIndex]
    have h2spreads : s2.spreads = s.spreads := by
      rw [hs2]; simp [setPivotRot, setPageVis, updateCover_spreads]
    have h2cache : s2.flippedCache = s.flippedCache := by
      rw [hs2]; simp [setPivotRot, setPageVis, updateCover_cache]
    have h2chL2 : s2.pivotLChildren = [fid, bid] := by
      rw [hs2]; simp [setPivotRot, setPageVis, updateCover_pivotLChildren, hchL]
    have h2chR2 : s2.pivotRChildren = [] := by
      rw [hs2]; simp [setPivotRot, setPageVis, updateCover_pivotRChildren, hchR]
    rw [endFlip_eq_bwd s2 m sp fid bid (by rw [h2flip]; exact hInv.owv)
        (by rw [h2flip]; exact hpiv) (by rw [h2flip]; exact hhid)
        (by rw [h2flip]; exact hund) (by rw [h2flip]; exact hoth)
        (by rw [h2flip]; exact hfm) (by rw [h2flip]; exact hbm)
        h2chL2 (by rw [h2idx, h2flip]; exact hmeq) (by rw [h2spreads]; exact hget)]
    refine ⟨rfl, hmeq.symm, rfl, rfl, rfl, rfl, rfl, rfl, rfl, rfl, rfl, rfl,
            rfl, h2chR2, ?_, h2cache, h2spreads, ⟨m, rfl, hmlt⟩, rfl⟩
    intro u hu'
    rw [hund] at hu'
    injection hu' with h
    subst h
    rfl

/-! ### Invariant preservation -/

theorem flipShape_transfer (s t : BookState)
    (hflip : t.flip = s.flip) (hspr : t.spreads = s.spreads)
    (hidx : t.spreadIndex = s.spreadIndex)
    (hulv : t.underLeftVis = s.underLeftVis)
    (hurv : t.underRightVis = s.underRightVis)
    (huml : t.underMapL = s.underMapL) (humr : t.underMapR = s.underMapR)
    (hlpv : ¬(s.flip.dir = 1) → t.leftPageVis = s.leftPageVis)
    (hrpv : s.flip.dir = 1 → t.rightPageVis = s.rightPageVis)
    (hchl : t.pivotLChildren = s.pivotLChildren)
    (hchr : t.pivotRChildren = s.pivotRChildren)
    (h : FlipShape s) : FlipShape t := by
  obtain ⟨sp, hsp, fid, bid, hfm, hbm, hif⟩ := h
  refine ⟨sp, ?_, fid, bid, ?_, ?_, ?_⟩
  · rw [hspr, hidx, hflip]; exact hsp
  · rw [hflip]; exact hfm
  · rw [hflip]; exact hbm
  · rw [hflip]
    by_cases hdir : s.flip.dir = 1
    · rw [if_pos hdir] at hif ⊢
      obtain ⟨h1, h2, h3, h4, h5, h6, h7, h8, h9⟩ := hif
      refine ⟨h1, h2, h3, h4, ?_, ?_, ?_, ?_, ?_⟩
      · rw [hurv]; exact h5
      · rw [humr]; exact h6
      · rw [hrpv hdir]; exact h7
      · rw [hchr]; exact h8
      · rw [hchl]; exact h9
    · rw [if_neg hdir] at hif ⊢
      obtain ⟨h1, h2, h3, h4, h5, h6, h7, h8, h9⟩ := hif
      refine ⟨h1, h2, h3, h4, ?_, ?_, ?_, ?_, ?_⟩
      · rw [hulv]; exact h5
      · rw [huml]; exact h6
      · rw [hlpv hdir]; exact h7
      · rw [hchl]; exact h8
      · rw [hchr]; exact h9

theorem inv_updateCover (now : ℚ) (s : BookState) (hInv : BookInv s) :
    BookInv (updateCover now s) := by
  refine ⟨?_, ?_, ?_, ?_, ?_, ?_, ?_⟩
  · rw [updateCover_spreads]; exact hInv.spreadsOk
  · rw [updateCover_spreadIndex, updateCover_spreads]; exact hInv.idxOk
  · rw [updateCover_flip]; exact hInv.owv
  · rw [updateCover_flip, updateCover_leftPageVis, updateCover_rightPageVis,
        updateCover_pivotLChildren, updateCover_pivotRChildren]
    exact hInv.inact
  · rw [updateCover_flip]
    intro hact
    exact updateCover_anim_keep now s (hInv.actCover hact)
  · rw [updateCover_flip, updateCover_pivotLChildren, updateCover_pivotRChildren,
        updateCover_spreadIndex]
    exact hInv.actBroken
  · rw [updateCover_flip]
    intro hact hne
    refine flipShape_transfer s (updateCover now s) (updateCover_flip now s)
      (updateCover_spreads now s) (updateCover_spreadIndex now s)
      (updateCover_underLeftVis_of_active now s hact)
      (updateCover_underRightVis_of_active now s hact)
      (updateCover_underMapL now s) (updateCover_underMapR now s)
      (fun _ => updateCover_leftPageVis now s)
      (fun _ => updateCover_rightPageVis now s)
      (updateCover_pivotLChildren now s) (updateCover_pivotRChildren now s)
      (hInv.actProper hact hne)

theorem inv_toggleCover (now : ℚ) (s : BookState) (hInv : BookInv s) :
    BookInv (toggleCover now s) := by
  unfold toggleCover
  split
  · exact hInv
  · next hg =>
    simp only [Bool.or_eq_true, not_or, Bool.not_eq_true] at hg
    exact ⟨hInv.spreadsOk, hInv.idxOk, hInv.owv, hInv.inact,
           fun hact => by rw [hg.1] at hact; exact absurd hact (by simp),
           fun hact => by rw [hg.1] at hact; exact absurd hact (by simp),
           fun hact => by rw [hg.1] at hact; exact absurd hact (by simp)⟩

theorem setSpread_ok (i : ℚ) (s : BookState) (h2 : (setSpread i s).2 = false) :
    ∃ m : ℕ, ∃ sp : Spread,
      mclamp i 0 ((s.spreads.length : ℚ) - 1) = (m : ℚ) ∧
      s.spreads.get? m = some sp ∧
      (setSpread i s).1 =
        { s with spreadIndex := (m : ℚ), leftMap := sp.left,
                 rightMap := sp.right } := by
  unfold setSpread at h2 ⊢
  dsimp only at h2 ⊢
  cases hj : jsIndex s.spreads (mclamp i 0 ((s.spreads.length : ℚ) - 1)) with
  | none => simp [hj] at h2
  | some sp =>
    obtain ⟨m, hmeq, hget⟩ := jsIndex_eq_some hj
    exact ⟨m, sp, hmeq, hget, by rw [hmeq]⟩

theorem inv_mkBook (cfg : BookConfig) (s : BookState) (h : mkBook cfg = .ok s) :
    BookInv s := by
  unfold mkBook at h
  dsimp only at h
  split at h
  · exact absurd h (by simp)
  · split at h
    · exact absurd h (by simp)
    · next hval =>
      rw [Bool.not_eq_true] at hval
      have hall : ∀ sp2 ∈ cfg.spreads, sp2.left.isSome ∧ sp2.right.isSome := by
        intro sp2 hmem
        have hb : cfg.spreads.all (fun q => q.left.isSome && q.right.isSome) = true := by
          cases hb : cfg.spreads.all fun q => q.left.isSome && q.right.isSome with
          | false => rw [hb] at hval; simp at hval
          | true => rfl
        have hmem2 := List.all_eq_true.mp hb sp2 hmem
        rw [Bool.and_eq_true] at hmem2
        exact hmem2
      split at h
      · exact absurd h (by simp)
      · next hthrew =>
        rw [Bool.not_eq_true] at hthrew
        obtain ⟨m, sp, hmc, hget, hstate⟩ :=
          setSpread_ok (cfg.initialSpreadIndex.getD 0) (initState cfg) hthrew
        have hmlt : m < (initState cfg).spreads.length := by
          by_contra hle
          rw [List.get?_eq_none.mpr (le_of_not_lt hle)] at hget
          exact Option.noConfusion hget
        rw [hstate] at h
        have hs := Except.ok.inj h
        subst hs
        refine ⟨hall, ⟨m, rfl, hmlt⟩, rfl,
          fun _ => ⟨rfl, rfl, rfl, rfl, rfl, rfl, rfl, rfl, rfl, rfl⟩, ?_, ?_, ?_⟩
        · intro hact; exact absurd hact (by simp [initState])
        · intro hact; exact absurd hact (by simp [initState])
        · intro hact; exact absurd hact (by simp [initState])


set_option maxHeartbeats 2000000 in
theorem inv_flipPage (dir now : ℚ) (s : BookState) (hInv : BookInv s) :
    BookInv (flipPage dir now s).1 := by
  cases hopen : s.cover.isOpen with
  | false => rw [flipPage_reject s dir now (Or.inl hopen)]; exact hInv
  | true =>
  cases hanim : s.cover.anim with
  | true => rw [flipPage_reject s dir now (Or.inr (Or.inl hanim))]; exact hInv
  | false =>
  cases hact : s.flip.active with
  | true => rw [flipPage_reject s dir now (Or.inr (Or.inr (Or.inl hact)))]; exact hInv
  | false =>
  by_cases h0 : s.spreadIndex + dir < 0
  · rw [flipPage_reject s dir now (Or.inr (Or.inr (Or.inr (Or.inl h0))))]; exact hInv
  by_cases h2 : (s.spreads.length : ℚ) ≤ s.spreadIndex + dir
  · rw [flipPage_reject s dir now (Or.inr (Or.inr (Or.inr (Or.inr h2))))]; exact hInv
  obtain ⟨hlv, hrv, hpn, hhn, hfn, hbn, hun, hon, hcl, hcr⟩ := hInv.inact hact
  by_cases hdir : dir = 1
  · subst hdir
    cases hsp : jsIndex s.spreads (s.spreadIndex + 1) with
    | none =>
      rw [flipPage_throw_fwd s now hopen hanim hact hsp h0 h2]
      refine ⟨hInv.spreadsOk, hInv.idxOk, hlv, ?_, fun _ => hanim, ?_, ?_⟩
      · intro hcon; exact absurd hcon (by simp)
      · intro _ _
        exact ⟨hhn, hfn, hbn, hun, hcl, hcr,
               jsIndex_none_den hsp (not_lt.mp h0) (not_le.mp h2)⟩
      · intro _ hne; exact absurd hpn hne
    | some sp =>
      obtain ⟨m, hmeq, hget⟩ := jsIndex_eq_some hsp
      have htl : sp.left.isSome := (hInv.spreadsOk sp (List.get?_mem hget)).1
      obtain ⟨_, c2, c3, c4, c5, c6, c7, c8, c9, c10, c11, c12, c13, c14, c15,
              c16, c17, c18, c19, c20, c21, c22, c23, c24⟩ :=
        flipPage_accept_fwd s now sp hopen hanim hact hsp htl
      refine ⟨?_, ?_, ?_, ?_, ?_, ?_, ?_⟩
      · rw [c12]; exact hInv.spreadsOk
      · rw [c13, c12]; exact hInv.idxOk
      · rw [c11]; exact hlv
      · intro hcon; rw [c2] at hcon; exact absurd hcon (by simp)
      · intro _; rw [c16]; exact hanim
      · intro _ hpn2; rw [c5] at hpn2; exact absurd hpn2 (by simp)
      · intro _ _
        refine ⟨sp, ?_, s.nextMeshId, s.nextMeshId + 1, c9, c10, ?_⟩
        · rw [c12, c13, c3]; exact hsp
        · rw [c3, if_pos rfl]
          refine ⟨c5, c6, c7, c8, c17, c18, c21, ?_, ?_⟩
          · rw [c23, hcr]; rfl
          · rw [c24]; exact hcl
  · cases hsp : jsIndex s.spreads (s.spreadIndex + dir) with
    | none =>
      rw [flipPage_throw_bwd s dir now hdir hopen hanim hact hsp h0 h2]
      refine ⟨hInv.spreadsOk, hInv.idxOk, hrv, ?_, fun _ => hanim, ?_, ?_⟩
      · intro hcon; exact absurd hcon (by simp)
      · intro _ _
        exact ⟨hhn, hfn, hbn, hun, hcl, hcr,
               jsIndex_none_den hsp (not_lt.mp h0) (not_le.mp h2)⟩
      · intro _ hne; exact absurd hpn hne
    | some sp =>
      obtain ⟨m, hmeq, hget⟩ := jsIndex_eq_some hsp
      have htr : sp.right.isSome := (hInv.spreadsOk sp (List.get?_mem hget)).2
      obtain ⟨_, c2, c3, c4, c5, c6, c7, c8, c9, c10, c11, c12, c13, c14, c15,
              c16, c17, c18, c19, c20, c21, c22, c23, c24⟩ :=
        flipPage_accept_bwd s dir now sp hdir hopen hanim hact hsp htr
      refine ⟨?_, ?_, ?_, ?_, ?_, ?_, ?_⟩
      · rw [c12]; exact hInv.spreadsOk
      · rw [c13, c12]; exact hInv.idxOk
      · rw [c11]; exact hrv
      · intro hcon; rw [c2] at hcon; exact absurd hcon (by simp)
      · intro _; rw [c16]; exact hanim
      · intro _ hpn2; rw [c5] at hpn2; exact absurd hpn2 (by simp)
      · intro _ _
        refine ⟨sp, ?_, s.nextMeshId, s.nextMeshId + 1, c9, c10, ?_⟩
        · rw [c12, c13, c3]; exact hsp
        · rw [c3, if_neg hdir]
          refine ⟨c5, c6, c7, c8, c17, c18, c21, ?_, ?_⟩
          · rw [c23, hcl]; rfl
          · rw [c24]; exact hcr

set_option maxHeartbeats 2000000 in
theorem inv_update (now : ℚ) (s : BookState) (hInv : BookInv s) :
    BookInv (update now s).1 := by
  cases hact : s.flip.active with
  | false => rw [update_eq_of_inactive now s hact]; exact inv_updateCover now s hInv
  | true =>
  cases hp : s.flip.pivot with
  | none => rw [update_eq_of_pivot_none now s hp]; exact inv_updateCover now s hInv
  | some p =>
  have hne : s.flip.pivot ≠ none := by rw [hp]; simp
  by_cases hu : (1 : ℚ) ≤ min 1 ((now - s.flip.t0) / s.flipSpeed)
  · obtain ⟨d1, d2, d3, d4, d5, d6, d7, d8, d9, d10, d11, d12, d13, d14, d15,
            d16, d17, d18, d19⟩ := update_complete_core s now hInv hact p hp hu
    obtain ⟨m, hm1, hm2⟩ := d18
    refine ⟨?_, ?_, d10, ?_, ?_, ?_, ?_⟩
    · rw [d17]; exact hInv.spreadsOk
    · exact ⟨m, hm1, by rw [d17]; exact hm2⟩
    · intro _; exact ⟨d11, d12, d4, d5, d6, d7, d8, d9, d13, d14⟩
    · intro hcon; rw [d3] at hcon; exact absurd hcon (by simp)
    · intro hcon; rw [d3] at hcon; exact absurd hcon (by simp)
    · intro hcon; rw [d3] at hcon; exact absurd hcon (by simp)
  · obtain ⟨sp, hsp, fid, bid, hfm, hbm, hif⟩ := hInv.actProper hact hne
    by_cases hdir : s.flip.dir = 1
    · rw [if_pos hdir] at hif
      obtain ⟨hpiv, hhid, hund, hoth, hurv, humr, hrpv, hchR, hchL⟩ := hif
      have hpp : p = PivotRef.pivR := by rw [hp] at hpiv; exact Option.some.inj hpiv
      subst hpp
      rw [update_advance now s .pivR .leftP hact hp hoth hu]
      dsimp only
      have hTflip : ∀ b r, (setPivotRot PivotRef.pivR r
          (setPageVis PageRef.leftP b (updateCover now s))).flip = s.flip := by
        intro b r
        rw [setPivotRot_flip, setPageVis_flip, updateCover_flip]
      refine ⟨?_, ?_, ?_, ?_, ?_, ?_, ?_⟩
      · rw [setPivotRot_spreads, setPageVis_spreads, updateCover_spreads]
        exact hInv.spreadsOk
      · rw [setPivotRot_spreadIndex, setPageVis_spreadIndex, updateCover_spreadIndex,
            setPivotRot_spreads, setPageVis_spreads, updateCover_spreads]
        exact hInv.idxOk
      · rw [hTflip]; exact hInv.owv
      · intro hcon; rw [hTflip] at hcon; rw [hact] at hcon
        exact absurd hcon (by simp)
      · intro _
        rw [setPivotRot_cover, setPageVis_cover]
        exact updateCover_anim_keep now s (hInv.actCover hact)
      · intro _ hcon; rw [hTflip, hp] at hcon
        exact absurd hcon (by simp)
      · intro _ _
        refine flipShape_transfer s _ (hTflip _ _)
          (by rw [setPivotRot_spreads, setPageVis_spreads, updateCover_spreads])
          (by rw [setPivotRot_spreadIndex, setPageVis_spreadIndex,
                  updateCover_spreadIndex])
          (by rw [setPivotRot_underLeftVis, setPageVis_underLeftVis,
                  updateCover_underLeftVis_of_active now s hact])
          (by rw [setPivotRot_underRightVis, setPageVis_underRightVis,
                  updateCover_underRightVis_of_active now s hact])
          (by rw [setPivotRot_underMapL, setPageVis_underMapL, updateCover_underMapL])
          (by rw [setPivotRot_underMapR, setPageVis_underMapR, updateCover_underMapR])
          (fun hcon => absurd hdir hcon)
          (fun _ => by rw [setPivotRot_rightPageVis, setPageVis_rightPageVis_left,
                           updateCover_rightPageVis])
          (by rw [setPivotRot_pivotLChildren, setPageVis_pivotLChildren,
                  updateCover_pivotLChildren])
          (by rw [setPivotRot_pivotRChildren, setPageVis_pivotRChildren,
                  updateCover_pivotRChildren])
          (hInv.actProper hact hne)
    · rw [if_neg hdir] at hif
      obtain ⟨hpiv, hhid, hund, hoth, hulv, huml, hlpv, hchL, hchR⟩ := hif
      have hpp : p = PivotRef.pivL := by rw [hp] at hpiv; exact Option.some.inj hpiv
      subst hpp
      rw [update_advance now s .pivL .rightP hact hp hoth hu]
      dsimp only
      have hTflip : ∀ b r, (setPivotRot PivotRef.pivL r
          (setPageVis PageRef.rightP b (updateCover now s))).flip = s.flip := by
        intro b r
        rw [setPivotRot_flip, setPageVis_flip, updateCover_flip]
      refine ⟨?_, ?_, ?_, ?_, ?_, ?_, ?_⟩
      · rw [setPivotRot_spreads, setPageVis_spreads, updateCover_spreads]
        exact hInv.spreadsOk
      · rw [setPivotRot_spreadIndex, setPageVis_spreadIndex, updateCover_spreadIndex,
            setPivotRot_spreads, setPageVis_spreads, updateCover_spreads]
        exact hInv.idxOk
      · rw [hTflip]; exact hInv.owv
      · intro hcon; rw [hTflip] at hcon; rw [hact] at hcon
        exact absurd hcon (by simp)
      · intro _
        rw [setPivotRot_cover, setPageVis_cover]
        exact updateCover_anim_keep now s (hInv.actCover hact)
      · intro _ hcon; rw [hTflip, hp] at hcon
        exact absurd hcon (by simp)
      · intro _ _
        refine flipShape_transfer s _ (hTflip _ _)
          (by rw [setPivotRot_spreads, setPageVis_spreads, updateCover_spreads])
          (by rw [setPivotRot_spreadIndex, setPageVis_spreadIndex,
                  updateCover_spreadIndex])
          (by rw [setPivotRot_underLeftVis, setPageVis_underLeftVis,
                  updateCover_underLeftVis_of_active now s hact])
          (by rw [setPivotRot_underRightVis, setPageVis_underRightVis,
                  updateCover_underRightVis_of_active now s hact])
          (by rw [setPivotRot_underMapL, setPageVis_underMapL, updateCover_underMapL])
          (by rw [setPivotRot_underMapR, setPageVis_underMapR, updateCover_underMapR])
          (fun _ => by rw [setPivotRot_leftPageVis, setPageVis_leftPageVis_right,
                           updateCover_leftPageVis])
          (fun hcon => absurd hcon hdir)
          (by rw [setPivotRot_pivotLChildren, setPageVis_pivotLChildren,
                  updateCover_pivotLChildren])
          (by rw [setPivotRot_pivotRChildren, setPageVis_pivotRChildren,
                  updateCover_pivotRChildren])
          (hInv.actProper hact hne)

/-- Every reachable state satisfies the invariant. -/
theorem reachable_inv (cfg : BookConfig) (s : BookState)
    (h : Reachable cfg s) : BookInv s := by
  induction h with
  | init s hs => exact inv_mkBook cfg s hs
  | step a s _ ih =>
    cases a with
    | flipA d n => exact inv_flipPage d n s ih
    | toggleA n => exact inv_toggleCover n s ih
    | updateA n => exact inv_update n s ih

/-! ### Further helper lemmas for the claims -/

theorem pivot_of_unit_dir (s : BookState) (hInv : BookInv s)
    (hact : s.flip.active = true) (hdir : s.flip.dir = 1 ∨ s.flip.dir = -1) :
    ∃ p, s.flip.pivot = some p := by
  cases hpv : s.flip.pivot with
  | some p => exact ⟨p, rfl⟩
  | none =>
    obtain ⟨_, _, _, _, _, _, hden⟩ := hInv.actBroken hact hpv
    obtain ⟨m, hm, _⟩ := hInv.idxOk
    refine absurd ?_ hden
    rcases hdir with hd | hd <;> rw [hm, hd]
    · have he : (m : ℚ) + 1 = ((m + 1 : ℕ) : ℚ) := by push_cast; ring
      rw [he, Rat.den_natCast]
    · have he : (m : ℚ) + (-1) = (((m : ℤ) - 1 : ℤ) : ℚ) := by push_cast; ring
      rw [he, Rat.den_intCast]

theorem pivotRot_setPivotRot (p : PivotRef) (r : ℚ) (s : BookState) :
    pivotRot (setPivotRot p r s) p = r := by cases p <;> rfl

theorem pageVis_setPivotRot (p : PivotRef) (r : ℚ) (o : PageRef) (s : BookState) :
    pageVis (setPivotRot p r s) o = pageVis s o := by cases p <;> cases o <;> rfl

theorem pageVis_setPageVis (o : PageRef) (b : Bool) (s : BookState) :
    pageVis (setPageVis o b s) o = b := by cases o <;> rfl

theorem toggleCover_cache (now : ℚ) (s : BookState) :
    (toggleCover now s).flippedCache = s.flippedCache := by
  unfold toggleCover
  split <;> rfl

theorem update_cache (now : ℚ) (s : BookState) (hInv : BookInv s) :
    ((update now s).1).flippedCache = s.flippedCache := by
  cases hact : s.flip.active with
  | false => rw [update_eq_of_inactive now s hact]; exact updateCover_cache now s
  | true =>
  cases hp : s.flip.pivot with
  | none => rw [update_eq_of_pivot_none now s hp]; exact updateCover_cache now s
  | some p =>
  have hne : s.flip.pivot ≠ none := by rw [hp]; simp
  by_cases hu : (1 : ℚ) ≤ min 1 ((now - s.flip.t0) / s.flipSpeed)
  · obtain ⟨_, _, _, _, _, _, _, _, _, _, _, _, _, _, _, d16, _⟩ :=
      update_complete_core s now hInv hact p hp hu
    exact d16
  · obtain ⟨sp, hsp, fid, bid, hfm, hbm, hif⟩ := hInv.actProper hact hne
    by_cases hdir : s.flip.dir = 1
    · rw [if_pos hdir] at hif
      have hoth := hif.2.2.2.1
      have hpp : p = PivotRef.pivR := by
        have hpiv := hif.1
        rw [hp] at hpiv; exact Option.some.inj hpiv
      subst hpp
      rw [update_advance now s .pivR .leftP hact hp hoth hu]
      dsimp only
      rw [setPivotRot_cache, setPageVis_cache, updateCover_cache]
    · rw [if_neg hdir] at hif
      have hoth := hif.2.2.2.1
      have hpp : p = PivotRef.pivL := by
        have hpiv := hif.1
        rw [hp] at hpiv; exact Option.some.inj hpiv
      subst hpp
      rw [update_advance now s .pivL .rightP hact hp hoth hu]
      dsimp only
      rw [setPivotRot_cache, setPageVis_cache, updateCover_cache]

theorem getFlippedTex_cache_mono (tex : Option Tex) (key2 key : String) (t : Tex)
    (s : BookState) (h : cacheFind s.flippedCache key = some t) :
    cacheFind ((getFlippedTex tex key2 s).2.1).flippedCache key = some t := by
  unfold getFlippedTex
  cases hcf : cacheFind s.flippedCache key2 with
  | some t2 => exact h
  | none =>
    cases tex with
    | none => exact h
    | some t3 => exact cacheFind_append_some h _

theorem flipPage_cache_mono (d n : ℚ) (s : BookState) (key : String) (t : Tex)
    (h : cacheFind s.flippedCache key = some t) :
    cacheFind ((flipPage d n s).1).flippedCache key = some t := by
  cases hopen : s.cover.isOpen with
  | false => rw [flipPage_reject s d n (Or.inl hopen)]; exact h
  | true =>
  cases hanim : s.cover.anim with
  | true => rw [flipPage_reject s d n (Or.inr (Or.inl hanim))]; exact h
  | false =>
  cases hact : s.flip.active with
  | true => rw [flipPage_reject s d n (Or.inr (Or.inr (Or.inl hact)))]; exact h
  | false =>
  by_cases h0 : s.spreadIndex + d < 0
  · rw [flipPage_reject s d n (Or.inr (Or.inr (Or.inr (Or.inl h0))))]; exact h
  by_cases h2 : (s.spreads.length : ℚ) ≤ s.spreadIndex + d
  · rw [flipPage_reject s d n (Or.inr (Or.inr (Or.inr (Or.inr h2))))]; exact h
  unfold flipPage
  rw [hopen, hanim, hact]
  dsimp only
  rw [if_neg (by simp), if_neg (by simp), if_neg (not_or.mpr ⟨h0, h2⟩)]
  by_cases hdir : d = 1
  · rw [if_pos hdir]
    cases hsp : jsIndex s.spreads (s.spreadIndex + d) with
    | none => exact h
    | some sp =>
      dsimp only
      unfold getFlippedTex
      dsimp only
      cases hcf : cacheFind s.flippedCache (flipCacheKey (s.spreadIndex + d) "left") with
      | some t2 => simp only [hcf]; exact h
      | none =>
        cases htl : sp.left with
        | none => simp only [hcf, htl]; exact h
        | some tl =>
          simp only [hcf, htl]
          exact cacheFind_append_some h _
  · rw [if_neg hdir]
    cases hsp : jsIndex s.spreads (s.spreadIndex + d) with
    | none => exact h
    | some sp =>
      dsimp only
      unfold getFlippedTex
      dsimp only
      cases hcf : cacheFind s.flippedCache (flipCacheKey (s.spreadIndex + d) "right") with
      | some t2 => simp only [hcf]; exact h
      | none =>
        cases htr : sp.right with
        | none => simp only [hcf, htr]; exact h
        | some tr =>
          simp only [hcf, htr]
          exact cacheFind_append_some h _

theorem toggleCover_accept (now : ℚ) (s : BookState)
    (hfa : s.flip.active = false) (hca : s.cover.anim = false) :
    toggleCover now s =
      { s with cover := { isOpen := !s.cover.isOpen, t0 := now, anim := true } } := by
  unfold toggleCover
  rw [if_neg (by simp [hfa, hca])]

theorem cacheFind_append_none {c : List (String × Tex)} {key : String}
    (h : cacheFind c key = none) (t : Tex) :
    cacheFind (c ++ [(key, t)]) key = some t := by
  induction c with
  | nil => simp [cacheFind]
  | cons p rest ih =>
    rcases p with ⟨k, v⟩
    by_cases hk : k = key
    · simp [cacheFind, hk] at h
    · rw [List.cons_append]
      simp only [cacheFind, if_neg hk] at h ⊢
      exact ih h

theorem mclamp_int (k : ℤ) (len : ℕ) (hlen : 1 ≤ len) :
    ∃ m : ℕ, mclamp (k : ℚ) 0 ((len : ℚ) - 1) = (m : ℚ) ∧ m < len := by
  have hv0 : (0 : ℤ) ≤ max 0 (min ((len : ℤ) - 1) k) := le_max_left _ _
  have hvle : max 0 (min ((len : ℤ) - 1) k) ≤ (len : ℤ) - 1 := by
    apply max_le
    · omega
    · exact min_le_left _ _
  refine ⟨(max 0 (min ((len : ℤ) - 1) k)).toNat, ?_, by omega⟩
  have hcast : (((max 0 (min ((len : ℤ) - 1) k)).toNat : ℕ) : ℚ) =
      ((max 0 (min ((len : ℤ) - 1) k) : ℤ) : ℚ) := by
    exact_mod_cast congrArg (fun z : ℤ => (z : ℚ)) (Int.toNat_of_nonneg hv0)
  rw [hcast]
  unfold mclamp
  push_cast
  rfl

/-! ### Concrete configurations and states used by the witnesses -/

/-- A three-spread configuration with all texture handles present. -/
def cfgA : BookConfig :=
  { spreads := [{ left := some ⟨100⟩, right := some ⟨101⟩ },
                { left := some ⟨102⟩, right := some ⟨103⟩ },
                { left := some ⟨104⟩, right := some ⟨105⟩ }],
    coverSpeed := none, flipSpeed := none, initialSpreadIndex := none }

/-- The state of the freshly constructed book over `cfgA`, written out. -/
def sA : BookState :=
  { spreads := cfgA.spreads, coverSpeed := 8/5, flipSpeed := 6/5,
    spreadIndex := 0, flippedCache := [], nextTexId := 0, nextMeshId := 0,
    leftMap := some ⟨100⟩, rightMap := some ⟨101⟩,
    underMapL := none, underMapR := none,
    leftPageVis := true, rightPageVis := true,
    underLeftVis := false, underRightVis := false,
    pivotLRot := 0, pivotRRot := 0, pivotLChildren := [], pivotRChildren := [],
    leftCoverRot := 0, rightCoverRot := 0, halfLRot := 0, halfRRot := 0,
    cover := { isOpen := true, t0 := 0, anim := false },
    flip := { active := false, dir := 0, t0 := 0, pivot := none, hidden := none,
              frontMesh := none, backMesh := none, under := none, other := none,
              otherWasVisible := true } }

theorem mkBook_cfgA : mkBook cfgA = Except.ok sA := by
  have hmc : mclamp 0 0 (((initState cfgA).spreads.length : ℚ) - 1) =
      ((0 : ℕ) : ℚ) := by
    show mclamp 0 0 (((3 : ℕ) : ℚ) - 1) = ((0 : ℕ) : ℚ)
    unfold mclamp
    rw [min_def, max_def]
    norm_num
  have h1 : setSpread 0 (initState cfgA) = (sA, false) := by
    unfold setSpread
    dsimp only
    rw [hmc, jsIndex_natCast]
    rfl
  unfold mkBook
  rw [if_neg (by decide), if_neg (by decide)]
  dsimp only
  rw [show cfgA.initialSpreadIndex.getD 0 = (0 : ℚ) from rfl, h1]
  rfl

theorem reachable_sA : Reachable cfgA sA := Reachable.init sA mkBook_cfgA

/-- `sA` after an accepted forward `flipPage` at time 0: an in-flight turn,
written out. -/
def sB : BookState :=
  { sA with
    underRightVis := true, underMapR := some ⟨103⟩, rightPageVis := false,
    nextTexId := 1, nextMeshId := 2,
    flippedCache := [("flip:1:left", ⟨0⟩)],
    pivotRChildren := [0, 1],
    flip := { active := true, dir := 1, t0 := 0, pivot := some .pivR,
              hidden := some .rightP, frontMesh := some 0, backMesh := some 1,
              under := some .underR, other := some .leftP,
              otherWasVisible := true } }

theorem flipPage_sA : flipPage 1 0 sA = (sB, false) := by
  have hkey : flipCacheKey (((1 : ℕ) : ℚ)) "left" = "flip:1:left" := by
    unfold flipCacheKey
    rw [show (((1 : ℕ) : ℚ)).num = 1 by norm_num]
    rfl
  have hone : (0 : ℚ) + 1 = ((1 : ℕ) : ℚ) := by norm_num
  unfold flipPage
  rw [show sA.cover.isOpen = true from rfl, show sA.cover.anim = false from rfl,
      show sA.flip.active = false from rfl]
  dsimp only
  rw [if_neg (by simp), if_neg (by simp),
      if_neg (not_or.mpr
        ⟨show ¬(sA.spreadIndex + 1 < 0) from by
            show ¬((0 : ℚ) + 1 < 0); norm_num,
          show ¬((sA.spreads.length : ℚ) ≤ sA.spreadIndex + 1) from by
            show ¬(((3 : ℕ) : ℚ) ≤ (0 : ℚ) + 1); norm_num⟩),
      if_pos rfl]
  rw [show sA.spreadIndex + 1 = ((1 : ℕ) : ℚ) from hone, jsIndex_natCast]
  unfold getFlippedTex
  rw [hkey]
  rfl

theorem reachable_sB : Reachable cfgA sB := by
  have h := Reachable.step (Act.flipA 1 0) sA reachable_sA
  simp only [applyAct] at h
  rw [flipPage_sA] at h
  exact h

/-- `cfgA` with a fractional initial spread index. -/
def cfgFrac : BookConfig := { cfgA with initialSpreadIndex := some (1/2) }

/-- A configuration with an empty spread list. -/
def cfgEmpty : BookConfig :=
  { spreads := [], coverSpeed := none, flipSpeed := none,
    initialSpreadIndex := none }

/-- A configuration with a spread missing its left texture handle. -/
def cfgMissing : BookConfig :=
  { spreads := [{ left := none, right := some ⟨7⟩ }],
    coverSpeed := none, flipSpeed := none, initialSpreadIndex := none }

/-! ### The claims -/

/-- Claim C1: for every valid construction and every sequence of `flipPage`,
`toggleCover` and `update` calls, the current spread index stays within
`[0, spreadCount - 1]`: it is never negative and never at or past the number
of spreads. -/
theorem claim_spreadIndex_in_range (cfg : BookConfig) (s : BookState)
    (h : Reachable cfg s) :
    0 ≤ s.spreadIndex ∧ s.spreadIndex ≤ (s.spreads.length : ℚ) - 1 := by
  obtain ⟨m, hm, hlt⟩ := (reachable_inv cfg s h).idxOk
  constructor
  · rw [hm]; positivity
  · rw [hm]
    have h1 : (m : ℚ) + 1 ≤ (s.spreads.length : ℚ) := by
      exact_mod_cast Nat.succ_le_of_lt hlt
    linarith

theorem claim_spreadIndex_in_range_witness :
    0 ≤ sB.spreadIndex ∧ sB.spreadIndex ≤ (sB.spreads.length : ℚ) - 1 :=
  claim_spreadIndex_in_range cfgA sB reachable_sB

/-- Claim C2: throughout an active turn — in every reachable state with the
turn in flight, so in particular after each `update` call during the turn —
the reveal surface is visible and its material carries the next spread's
texture on the matching side, while the static page being turned stays
hidden. -/
theorem claim_reveal_surface (cfg : BookConfig) (s : BookState)
    (h : Reachable cfg s) (hact : isFlipActive s = true)
    (u : UnderRef) (hu : s.flip.under = some u) :
    underVis s u = true ∧
    (∃ sp, jsIndex s.spreads (s.spreadIndex + s.flip.dir) = some sp ∧
      underMap s u = (match u with
        | UnderRef.underL => sp.left
        | UnderRef.underR => sp.right)) ∧
    (∀ hpg, s.flip.hidden = some hpg → pageVis s hpg = false) := by
  have hInv := reachable_inv cfg s h
  cases hpv : s.flip.pivot with
  | none =>
    obtain ⟨_, _, _, hun, _, _, _⟩ := hInv.actBroken hact hpv
    rw [hun] at hu
    exact absurd hu (by simp)
  | some p =>
    obtain ⟨sp, hsp, fid, bid, _, _, hif⟩ := hInv.actProper hact (by rw [hpv]; simp)
    by_cases hdir : s.flip.dir = 1
    · rw [if_pos hdir] at hif
      obtain ⟨_, hhid, hund, _, hurv, humr, hrpv, _, _⟩ := hif
      rw [hund] at hu
      injection hu with hu2
      subst hu2
      refine ⟨hurv, ⟨sp, hsp, humr⟩, ?_⟩
      intro hpg hh
      rw [hhid] at hh
      injection hh with hh2
      subst hh2
      exact hrpv
    · rw [if_neg hdir] at hif
      obtain ⟨_, hhid, hund, _, hulv, huml, hlpv, _, _⟩ := hif
      rw [hund] at hu
      injection hu with hu2
      subst hu2
      refine ⟨hulv, ⟨sp, hsp, huml⟩, ?_⟩
      intro hpg hh
      rw [hhid] at hh
      injection hh with hh2
      subst hh2
      exact hlpv

theorem claim_reveal_surface_witness :
    underVis sB .underR = true ∧
    (∃ sp, jsIndex sB.spreads (sB.spreadIndex + sB.flip.dir) = some sp ∧
      underMap sB .underR = (match UnderRef.underR with
        | UnderRef.underL => sp.left
        | UnderRef.underR => sp.right)) ∧
    (∀ hpg, sB.flip.hidden = some hpg → pageVis sB hpg = false) :=
  claim_reveal_surface cfgA sB reachable_sB (by rfl) .underR (by rfl)

/-- Claim C4: `flipPage` is a silent no-op — the state is returned unchanged,
no transient meshes are created and nothing is thrown — whenever the cover is
closed, a cover animation is in flight, a turn is already active (hence a
second call before the first turn completes leaves exactly the one active
turn), or the target index is out of bounds. -/
theorem claim_flipPage_noop (s : BookState) (dir now : ℚ)
    (h : isCoverOpen s = false ∨ s.cover.anim = true ∨ isFlipActive s = true ∨
         s.spreadIndex + dir < 0 ∨
         (s.spreads.length : ℚ) ≤ s.spreadIndex + dir) :
    flipPage dir now s = (s, false) :=
  flipPage_reject s dir now h

theorem claim_flipPage_noop_witness :
    flipPage 1 1 sB = (sB, false) :=
  claim_flipPage_noop sB 1 1 (Or.inr (Or.inr (Or.inl (by rfl))))

/-! ### Further helper lemmas for the remaining claims -/

theorem mclamp_eq_min (x : ℚ) (hx : 0 ≤ x) : mclamp x 0 1 = min 1 x := by
  unfold mclamp
  exact max_eq_right (le_min zero_le_one hx)

theorem half_den_ne_one : ((1 : ℚ)/2).den ≠ 1 := by
  intro h
  have h2 : ((((1 : ℚ)/2).num : ℤ) : ℚ) = (1 : ℚ)/2 :=
    Rat.coe_int_num_of_den_eq_one h
  have h3 : (2 : ℚ) * ((((1 : ℚ)/2).num : ℤ) : ℚ) = 1 := by rw [h2]; norm_num
  have h4 : (2 : ℤ) * ((1 : ℚ)/2).num = 1 := by exact_mod_cast h3
  omega

theorem jsIndex_den_ne_one {α : Type} (l : List α) (i : ℚ) (h : i.den ≠ 1) :
    jsIndex l i = none := by
  unfold jsIndex
  rw [if_neg (show ¬(i.den = 1 ∧ 0 ≤ i.num) from fun hc => h hc.1)]

/-- Claim C3: when a turn is active and `update` runs with elapsed time at
least the flip duration, the spread index afterwards equals the pre-turn
index plus the direction, both hinge pivots are left without transient
turning meshes, the reveal surface is hidden, the previously hidden static
page is visible again, and the turn is inactive. -/
theorem claim_turn_completion (cfg : BookConfig) (s : BookState) (now : ℚ)
    (h : Reachable cfg s) (hact : isFlipActive s = true)
    (hdir : s.flip.dir = 1 ∨ s.flip.dir = -1)
    (hdur : 0 < s.flipSpeed) (ht : s.flipSpeed ≤ now - s.flip.t0) :
    (update now s).1.spreadIndex = s.spreadIndex + s.flip.dir ∧
    (update now s).1.pivotLChildren = [] ∧
    (update now s).1.pivotRChildren = [] ∧
    (∀ u, s.flip.under = some u → underVis (update now s).1 u = false) ∧
    (∀ pg, s.flip.hidden = some pg → pageVis (update now s).1 pg = true) ∧
    isFlipActive (update now s).1 = false := by
  have hInv := reachable_inv cfg s h
  obtain ⟨p, hp⟩ := pivot_of_unit_dir s hInv hact hdir
  have hu : (1 : ℚ) ≤ min 1 ((now - s.flip.t0) / s.flipSpeed) :=
    le_min le_rfl ((one_le_div hdur).mpr ht)
  obtain ⟨_, c2, c3, _, _, _, _, _, _, _, c11, c12, c13, c14, c15, _, _, _, _⟩ :=
    update_complete_core s now hInv hact p hp hu
  refine ⟨c2, c13, c14, c15, ?_, c3⟩
  intro pg _
  cases pg with
  | leftP => simpa [pageVis] using c11
  | rightP => simpa [pageVis] using c12

theorem claim_turn_completion_witness :
    (update 2 sB).1.spreadIndex = sB.spreadIndex + sB.flip.dir ∧
    (update 2 sB).1.pivotLChildren = [] ∧
    (update 2 sB).1.pivotRChildren = [] ∧
    (∀ u, sB.flip.under = some u → underVis (update 2 sB).1 u = false) ∧
    (∀ pg, sB.flip.hidden = some pg → pageVis (update 2 sB).1 pg = true) ∧
    isFlipActive (update 2 sB).1 = false :=
  claim_turn_completion cfgA sB 2 reachable_sB rfl (Or.inl rfl)
    (by show (0 : ℚ) < 6/5; norm_num) (by show (6 : ℚ)/5 ≤ 2 - 0; norm_num)

/-- Claim C5: at the completion of a turn the counterpart (opposite) static
page's visibility equals the value recorded at the moment the turn started
(`otherWasVisible`), restored verbatim.  In every reachable state this
recorded value is `true`, and `endFlip` indeed sets the counterpart back to
exactly that value. -/
theorem claim_counterpart_restored (cfg : BookConfig) (s : BookState) (now : ℚ)
    (h : Reachable cfg s) (hact : isFlipActive s = true)
    (hdir : s.flip.dir = 1 ∨ s.flip.dir = -1)
    (hdur : 0 < s.flipSpeed) (ht : s.flipSpeed ≤ now - s.flip.t0)
    (o : PageRef) (ho : s.flip.other = some o) :
    pageVis (update now s).1 o = s.flip.otherWasVisible := by
  have hInv := reachable_inv cfg s h
  obtain ⟨p, hp⟩ := pivot_of_unit_dir s hInv hact hdir
  have hu : (1 : ℚ) ≤ min 1 ((now - s.flip.t0) / s.flipSpeed) :=
    le_min le_rfl ((one_le_div hdur).mpr ht)
  obtain ⟨_, _, _, _, _, _, _, _, _, _, c11, c12, _, _, _, _, _, _, _⟩ :=
    update_complete_core s now hInv hact p hp hu
  rw [hInv.owv]
  cases o with
  | leftP => simpa [pageVis] using c11
  | rightP => simpa [pageVis] using c12

theorem claim_counterpart_restored_witness :
    pageVis (update 2 sB).1 .leftP = sB.flip.otherWasVisible :=
  claim_counterpart_restored cfgA sB 2 reachable_sB rfl (Or.inl rfl)
    (by show (0 : ℚ) < 6/5; norm_num) (by show (6 : ℚ)/5 ≤ 2 - 0; norm_num)
    .leftP rfl

/-- Claim C6: during an active turn each `update` call sets the hinge pivot
rotation (in units of π) to `±k` with
`k = easeInOut(clamp(elapsed / flipDuration, 0, 1))`, the sign given by the
direction, and — before completion — shows the opposite static page at its
recorded start-of-turn visibility while `k ≤ 0.55` and hides it once `k`
exceeds 0.55. -/
theorem claim_update_rotation_crossover (cfg : BookConfig) (s : BookState)
    (now : ℚ) (h : Reachable cfg s) (hact : isFlipActive s = true)
    (hdir : s.flip.dir = 1 ∨ s.flip.dir = -1)
    (hdur : 0 < s.flipSpeed) (hnn : 0 ≤ now - s.flip.t0) :
    pivotRot (update now s).1 (if s.flip.dir = 1 then .pivR else .pivL) =
      (if s.flip.dir = 1 then -1 else 1) *
        easeInOut (mclamp ((now - s.flip.t0) / s.flipSpeed) 0 1) ∧
    ((now - s.flip.t0) / s.flipSpeed < 1 →
      ∀ o, s.flip.other = some o →
        pageVis (update now s).1 o =
          (if easeInOut (mclamp ((now - s.flip.t0) / s.flipSpeed) 0 1) ≤ 11/20
            then s.flip.otherWasVisible else false)) := by
  have hInv := reachable_inv cfg s h
  have hx : 0 ≤ (now - s.flip.t0) / s.flipSpeed := div_nonneg hnn hdur.le
  have hmc : mclamp ((now - s.flip.t0) / s.flipSpeed) 0 1 =
      min 1 ((now - s.flip.t0) / s.flipSpeed) := mclamp_eq_min _ hx
  obtain ⟨p, hp⟩ := pivot_of_unit_dir s hInv hact hdir
  have hne : s.flip.pivot ≠ none := by rw [hp]; simp
  obtain ⟨sp, hsp, fid, bid, hfm, hbm, hif⟩ := hInv.actProper hact hne
  rw [hmc]
  by_cases hd1 : s.flip.dir = 1
  case pos =>
    rw [if_pos hd1] at hif
    obtain ⟨hpiv, hhid, hund, hoth, _⟩ := hif
    have hpp : p = PivotRef.pivR := by
      rw [hp] at hpiv; exact Option.some.inj hpiv
    subst hpp
    by_cases hu : (1 : ℚ) ≤ min 1 ((now - s.flip.t0) / s.flipSpeed)
    · obtain ⟨_, _, _, _, _, _, _, _, _, _, _, _, _, _, _, _, _, _, d19⟩ :=
        update_complete_core s now hInv hact .pivR hp hu
      refine ⟨?_, ?_⟩
      · rw [if_pos hd1]
        exact d19
      · intro hlt o ho
        exfalso
        have hmin : min 1 ((now - s.flip.t0) / s.flipSpeed) ≤
            (now - s.flip.t0) / s.flipSpeed := min_le_right _ _
        linarith
    · rw [update_advance now s .pivR .leftP hact hp hoth hu]
      dsimp only
      refine ⟨?_, ?_⟩
      · rw [show (if s.flip.dir = 1 then PivotRef.pivR else PivotRef.pivL) =
            PivotRef.pivR from if_pos hd1, pivotRot_setPivotRot]
      · intro hlt o ho
        have ho2 : o = PageRef.leftP := by
          rw [hoth] at ho; exact (Option.some.inj ho).symm
        subst ho2
        rw [pageVis_setPivotRot, pageVis_setPageVis]
  case neg =>
    rw [if_neg hd1] at hif
    obtain ⟨hpiv, hhid, hund, hoth, _⟩ := hif
    have hpp : p = PivotRef.pivL := by
      rw [hp] at hpiv; exact Option.some.inj hpiv
    subst hpp
    by_cases hu : (1 : ℚ) ≤ min 1 ((now - s.flip.t0) / s.flipSpeed)
    · obtain ⟨_, _, _, _, _, _, _, _, _, _, _, _, _, _, _, _, _, _, d19⟩ :=
        update_complete_core s now hInv hact .pivL hp hu
      refine ⟨?_, ?_⟩
      · rw [if_neg hd1]
        exact d19
      · intro hlt o ho
        exfalso
        have hmin : min 1 ((now - s.flip.t0) / s.flipSpeed) ≤
            (now - s.flip.t0) / s.flipSpeed := min_le_right _ _
        linarith
    · rw [update_advance now s .pivL .rightP hact hp hoth hu]
      dsimp only
      refine ⟨?_, ?_⟩
      · rw [show (if s.flip.dir = 1 then PivotRef.pivR else PivotRef.pivL) =
            PivotRef.pivL from if_neg hd1, pivotRot_setPivotRot]
      · intro hlt o ho
        have ho2 : o = PageRef.rightP := by
          rw [hoth] at ho; exact (Option.some.inj ho).symm
        subst ho2
        rw [pageVis_setPivotRot, pageVis_setPageVis]

theorem claim_update_rotation_crossover_witness :
    pivotRot (update (3/5) sB).1 (if sB.flip.dir = 1 then .pivR else .pivL) =
      (if sB.flip.dir = 1 then -1 else 1) *
        easeInOut (mclamp (((3 : ℚ)/5 - sB.flip.t0) / sB.flipSpeed) 0 1) ∧
    (((3 : ℚ)/5 - sB.flip.t0) / sB.flipSpeed < 1 →
      ∀ o, sB.flip.other = some o →
        pageVis (update (3/5) sB).1 o =
          (if easeInOut (mclamp (((3 : ℚ)/5 - sB.flip.t0) / sB.flipSpeed) 0 1)
              ≤ 11/20
            then sB.flip.otherWasVisible else false)) :=
  claim_update_rotation_crossover cfgA sB (3/5) reachable_sB rfl (Or.inl rfl)
    (by show (0 : ℚ) < 6/5; norm_num) (by show (0 : ℚ) ≤ 3/5 - 0; norm_num)

/-- Claim C7 (amended): constructing a book with an empty spread list, or
with any spread missing a texture handle, raises at construction time;
construction with a non-empty list in which every spread has both handles
succeeds provided the (optional) initial spread index is an integer.  (A
fractional initial index passes the spread validation yet still aborts
construction — see the counterexample.) -/
theorem claim_construction_validation (cfg : BookConfig) :
    (cfg.spreads = [] →
      mkBook cfg = Except.error "spreads debe tener al menos 1 spread") ∧
    (cfg.spreads ≠ [] →
      (∃ sp ∈ cfg.spreads, sp.left = none ∨ sp.right = none) →
      mkBook cfg = Except.error "cada spread debe tener left y right") ∧
    ((∀ sp ∈ cfg.spreads, sp.left.isSome ∧ sp.right.isSome) →
      cfg.spreads ≠ [] →
      (∃ k : ℤ, cfg.initialSpreadIndex.getD 0 = (k : ℚ)) →
      ∃ s, mkBook cfg = Except.ok s) := by
  refine ⟨?_, ?_, ?_⟩
  · intro hnil
    unfold mkBook
    rw [if_pos (by rw [hnil]; rfl)]
  · intro hne hex
    obtain ⟨sp, hmem, hmiss⟩ := hex
    have hisE : ¬(cfg.spreads.isEmpty = true) := by
      cases hcs : cfg.spreads with
      | nil => exact absurd hcs hne
      | cons a l => simp
    have hall : (cfg.spreads.all fun sp => sp.left.isSome && sp.right.isSome)
        = false := by
      cases hb : (cfg.spreads.all fun sp => sp.left.isSome && sp.right.isSome) with
      | false => rfl
      | true =>
        exfalso
        have hx := List.all_eq_true.mp hb sp hmem
        rcases hmiss with hl | hr
        · simp [hl] at hx
        · simp [hr] at hx
    unfold mkBook
    rw [if_neg hisE, if_pos (by rw [hall]; rfl)]
  · intro hall hne hint
    obtain ⟨k, hk⟩ := hint
    have hisE : ¬(cfg.spreads.isEmpty = true) := by
      cases hcs : cfg.spreads with
      | nil => exact absurd hcs hne
      | cons a l => simp
    have hallb : (cfg.spreads.all fun sp => sp.left.isSome && sp.right.isSome)
        = true := by
      rw [List.all_eq_true]
      intro sp hmem
      rw [Bool.and_eq_true]
      exact ⟨(hall sp hmem).1, (hall sp hmem).2⟩
    have hlen : 1 ≤ cfg.spreads.length := List.length_pos.mpr hne
    obtain ⟨m, hmc, hmlt⟩ := mclamp_int k cfg.spreads.length hlen
    obtain ⟨sp, hget⟩ : ∃ sp, cfg.spreads.get? m = some sp := by
      rw [List.get?_eq_get hmlt]
      exact ⟨_, rfl⟩
    have h2 : (setSpread (cfg.initialSpreadIndex.getD 0) (initState cfg)).2
        = false := by
      rw [hk]
      unfold setSpread
      dsimp only
      rw [show (initState cfg).spreads = cfg.spreads from rfl]
      rw [hmc, jsIndex_natCast, hget]
    refine ⟨(setSpread (cfg.initialSpreadIndex.getD 0) (initState cfg)).1, ?_⟩
    unfold mkBook
    rw [if_neg hisE, if_neg (by rw [hallb]; simp)]
    dsimp only
    rw [if_neg (by rw [h2]; simp)]

theorem claim_construction_validation_witness :
    mkBook cfgEmpty = Except.error "spreads debe tener al menos 1 spread" ∧
    mkBook cfgMissing = Except.error "cada spread debe tener left y right" ∧
    ∃ s, mkBook cfgA = Except.ok s :=
  ⟨(claim_construction_validation cfgEmpty).1 rfl,
   (claim_construction_validation cfgMissing).2.1 (by decide)
     ⟨{ left := none, right := some ⟨7⟩ }, by decide, Or.inl rfl⟩,
   (claim_construction_validation cfgA).2.2 (by decide) (by decide)
     ⟨0, by show (0 : ℚ) = ((0 : ℤ) : ℚ); norm_num⟩⟩

/-- The original claim C7 fails: `cfgFrac` passes the constructor's spread
validation (non-empty list, both texture handles on every spread) yet
construction still aborts, because the fractional initial spread index makes
the constructor's `setSpread` read `spreads[0.5]`, which is `undefined`, and
the subsequent property access throws a `TypeError`. -/
theorem claim_construction_validation_counterexample :
    validateConfig cfgFrac.spreads = true ∧
    mkBook cfgFrac = Except.error "TypeError" := by
  constructor
  · rfl
  · have hmc : mclamp ((1 : ℚ)/2) 0 ((cfgFrac.spreads.length : ℚ) - 1)
        = (1 : ℚ)/2 := by
      apply mclamp_eq_self (by norm_num)
      show (1 : ℚ)/2 ≤ ((3 : ℕ) : ℚ) - 1
      norm_num
    unfold mkBook
    rw [if_neg (by decide), if_neg (by decide)]
    dsimp only
    rw [show cfgFrac.initialSpreadIndex.getD 0 = (1 : ℚ)/2 from rfl]
    unfold setSpread
    dsimp only
    rw [show (initState cfgFrac).spreads = cfgFrac.spreads from rfl]
    rw [hmc, jsIndex_den_ne_one _ _ half_den_ne_one]
    rfl

/-- Claim C8: `toggleCover` is a silent no-op while a turn is active or a
cover animation is in flight; otherwise it flips `isOpen` immediately and
starts the animation clock, and two accepted toggles separated by `update`
calls spanning the full cover duration return `isCoverOpen` to its original
value. -/
theorem claim_toggleCover_round_trip (s : BookState) (now t1 t2 : ℚ) :
    (s.flip.active = true ∨ s.cover.anim = true → toggleCover now s = s) ∧
    (s.flip.active = false → s.cover.anim = false →
      isCoverOpen (toggleCover now s) = !(isCoverOpen s) ∧
      (toggleCover now s).cover.anim = true ∧
      (toggleCover now s).cover.t0 = now) ∧
    (s.flip.active = false → s.cover.anim = false →
      0 < s.coverSpeed → s.coverSpeed ≤ t1 - now → s.coverSpeed ≤ t2 - t1 →
      isCoverOpen ((update t2 (toggleCover t1
        ((update t1 (toggleCover now s)).1))).1) = isCoverOpen s) := by
  refine ⟨?_, ?_, ?_⟩
  · intro hre
    unfold toggleCover
    rw [if_pos]
    rcases hre with hfa | hca
    · rw [hfa]; simp
    · rw [hca]; simp
  · intro hfa hca
    rw [toggleCover_accept now s hfa hca]
    exact ⟨rfl, rfl, rfl⟩
  · intro hfa hca hcs h1 h2
    have he1 : toggleCover now s =
        { s with cover := { isOpen := !s.cover.isOpen, t0 := now, anim := true } } :=
      toggleCover_accept now s hfa hca
    have hupd1 : update t1 (toggleCover now s) =
        (updateCover t1 (toggleCover now s), false) :=
      update_eq_of_inactive t1 _ (by rw [he1]; exact hfa)
    have hanim2 : ((update t1 (toggleCover now s)).1).cover.anim = false := by
      rw [hupd1]
      apply updateCover_anim_clear
      · rw [he1]
      · rw [he1]; exact hcs
      · rw [he1]; show now + s.coverSpeed ≤ t1; linarith
    have hflip2 : ((update t1 (toggleCover now s)).1).flip = s.flip := by
      rw [hupd1]
      dsimp only
      rw [updateCover_flip, he1]
    have hopen2 : ((update t1 (toggleCover now s)).1).cover.isOpen
        = !s.cover.isOpen := by
      rw [hupd1]
      dsimp only
      rw [updateCover_isOpen, he1]
    set s2 := (update t1 (toggleCover now s)).1 with hs2
    have hfa2 : s2.flip.active = false := by rw [hflip2]; exact hfa
    have he3 : toggleCover t1 s2 =
        { s2 with cover := { isOpen := !s2.cover.isOpen, t0 := t1, anim := true } } :=
      toggleCover_accept t1 s2 hfa2 hanim2
    have hfa3 : (toggleCover t1 s2).flip.active = false := by
      rw [he3]; show s2.flip.active = false; exact hfa2
    have hopen3 : (toggleCover t1 s2).cover.isOpen = !(!s.cover.isOpen) := by
      rw [he3]
      show (!s2.cover.isOpen) = !(!s.cover.isOpen)
      rw [hopen2]
    have hupd2 : update t2 (toggleCover t1 s2) =
        (updateCover t2 (toggleCover t1 s2), false) :=
      update_eq_of_inactive t2 _ hfa3
    rw [hupd2]
    show (updateCover t2 (toggleCover t1 s2)).cover.isOpen = s.cover.isOpen
    rw [updateCover_isOpen, hopen3, Bool.not_not]

theorem claim_toggleCover_round_trip_witness :
    toggleCover 0 sB = sB ∧
    isCoverOpen ((update 4 (toggleCover 2 ((update 2 (toggleCover 0 sA)).1))).1)
      = isCoverOpen sA :=
  ⟨(claim_toggleCover_round_trip sB 0 0 0).1 (Or.inl rfl),
   (claim_toggleCover_round_trip sA 0 2 4).2.2 rfl rfl
     (by show (0 : ℚ) < 8/5; norm_num)
     (by show (8 : ℚ)/5 ≤ 2 - 0; norm_num)
     (by show (8 : ℚ)/5 ≤ 4 - 2; norm_num)⟩

/-- Claim C9: the mirrored texture for a cache key is created at most once
over the book's lifetime: a hit returns the identical cached handle with no
state change, a miss stores the freshly created handle under the key (so the
next request is a hit), and a stored entry survives every subsequent
`flipPage`, `toggleCover` and `update` call. -/
theorem claim_flipped_cache_memoized (cfg : BookConfig) (s : BookState)
    (h : Reachable cfg s) (tex : Option Tex) (key : String) (t : Tex) :
    (cacheFind s.flippedCache key = some t →
      getFlippedTex tex key s = (some t, s, false)) ∧
    (cacheFind s.flippedCache key = none → tex.isSome = true →
      cacheFind ((getFlippedTex tex key s).2.1).flippedCache key =
        (getFlippedTex tex key s).1 ∧
      (getFlippedTex tex key s).1 = some ⟨s.nextTexId⟩) ∧
    (∀ a : Act, cacheFind s.flippedCache key = some t →
      cacheFind (applyAct a s).flippedCache key = some t) := by
  refine ⟨?_, ?_, ?_⟩
  · intro hhit
    unfold getFlippedTex
    rw [hhit]
  · intro hmiss hsome
    obtain ⟨t0, ht0⟩ := Option.isSome_iff_exists.mp hsome
    unfold getFlippedTex
    rw [hmiss, ht0]
    dsimp only
    exact ⟨cacheFind_append_none hmiss _, rfl⟩
  · intro a hhit
    cases a with
    | flipA d n =>
      show cacheFind ((flipPage d n s).1).flippedCache key = some t
      exact flipPage_cache_mono d n s key t hhit
    | toggleA n =>
      show cacheFind (toggleCover n s).flippedCache key = some t
      rw [toggleCover_cache]
      exact hhit
    | updateA n =>
      show cacheFind ((update n s).1).flippedCache key = some t
      rw [update_cache n s (reachable_inv cfg s h)]
      exact hhit

theorem claim_flipped_cache_memoized_witness :
    getFlippedTex (some ⟨102⟩) "flip:1:left" sB = (some ⟨0⟩, sB, false) ∧
    cacheFind ((update 7 sB).1).flippedCache "flip:1:left" = some ⟨0⟩ :=
  ⟨(claim_flipped_cache_memoized cfgA sB reachable_sB (some ⟨102⟩)
      "flip:1:left" ⟨0⟩).1 rfl,
   (claim_flipped_cache_memoized cfgA sB reachable_sB (some ⟨102⟩)
      "flip:1:left" ⟨0⟩).2.2 (Act.updateA 7) rfl⟩

/-- The original claim C10 fails: direction `1/2` meets every stated
precondition at `sA` (cover open, no animation, no active turn, target index
`0.5` within `[0, 3)`), yet the call does not start a turn — the JS
`spreads[0.5]` read yields `undefined` and the subsequent property access
throws a `TypeError`, leaving the flip record without a hinge pivot. -/
theorem claim_flipPage_any_direction_counterexample :
    isCoverOpen sA = true ∧ sA.cover.anim = false ∧ isFlipActive sA = false ∧
    0 ≤ sA.spreadIndex + 1/2 ∧
    sA.spreadIndex + 1/2 < (sA.spreads.length : ℚ) ∧
    (flipPage (1/2) 0 sA).2 = true ∧
    (flipPage (1/2) 0 sA).1.flip.pivot = none := by
  have h0 : ¬(sA.spreadIndex + 1/2 < 0) := by
    show ¬((0 : ℚ) + 1/2 < 0); norm_num
  have h2 : ¬((sA.spreads.length : ℚ) ≤ sA.spreadIndex + 1/2) := by
    show ¬(((3 : ℕ) : ℚ) ≤ (0 : ℚ) + 1/2); norm_num
  have hden : (sA.spreadIndex + 1/2).den ≠ 1 := by
    rw [show sA.spreadIndex + 1/2 = (1 : ℚ)/2 from by
      show (0 : ℚ) + 1/2 = 1/2; norm_num]
    exact half_den_ne_one
  have hnil : jsIndex sA.spreads (sA.spreadIndex + 1/2) = none :=
    jsIndex_den_ne_one _ _ hden
  have heq := flipPage_throw_bwd sA (1/2) 0 (by norm_num) rfl rfl rfl hnil h0 h2
  refine ⟨rfl, rfl, rfl, not_lt.mp h0, lt_of_not_le h2, ?_, ?_⟩
  · rw [heq]
  · rw [heq]
    rfl

/-- Claim C10 (amended): `flipPage` accepts any *integer* direction `d`, not
only `±1`: when the cover is open, no animation or turn is in flight and
`currentIndex + d` is in bounds (including `d = 0`, which targets the
current spread), the call starts a turn recording direction `d`; every
`d ≠ 1` takes the left-hinge (backward) path and `d = 1` the right-hinge
path; completing the turn with `update` changes the spread index by exactly
`d`. -/
theorem claim_flipPage_any_integer_direction (cfg : BookConfig) (s : BookState)
    (h : Reachable cfg s) (d : ℤ) (now : ℚ)
    (hopen : isCoverOpen s = true) (hanim : s.cover.anim = false)
    (hact : isFlipActive s = false)
    (h0 : 0 ≤ s.spreadIndex + (d : ℚ))
    (h2 : s.spreadIndex + (d : ℚ) < (s.spreads.length : ℚ)) :
    (flipPage (d : ℚ) now s).2 = false ∧
    isFlipActive (flipPage (d : ℚ) now s).1 = true ∧
    (flipPage (d : ℚ) now s).1.flip.dir = (d : ℚ) ∧
    ((d : ℚ) ≠ 1 → (flipPage (d : ℚ) now s).1.flip.pivot = some .pivL) ∧
    ((d : ℚ) = 1 → (flipPage (d : ℚ) now s).1.flip.pivot = some .pivR) ∧
    (∀ t, 0 < s.flipSpeed → s.flipSpeed ≤ t - now →
      (update t (flipPage (d : ℚ) now s).1).1.spreadIndex =
        s.spreadIndex + (d : ℚ)) := by
  have hInv := reachable_inv cfg s h
  obtain ⟨m, hm, hmlt⟩ := hInv.idxOk
  have hz0 : (0 : ℤ) ≤ (m : ℤ) + d := by
    have h0' := h0; rw [hm] at h0'; exact_mod_cast h0'
  have hzlt : (m : ℤ) + d < (s.spreads.length : ℤ) := by
    have h2' := h2; rw [hm] at h2'; exact_mod_cast h2'
  have hcast : s.spreadIndex + (d : ℚ) = ((((m : ℤ) + d).toNat : ℕ) : ℚ) := by
    have hz1 : ((((m : ℤ) + d).toNat : ℕ) : ℤ) = (m : ℤ) + d :=
      Int.toNat_of_nonneg hz0
    have hz3 : ((((m : ℤ) + d).toNat : ℕ) : ℚ) = (((m : ℤ) + d : ℤ) : ℚ) := by
      exact_mod_cast congrArg (fun z : ℤ => (z : ℚ)) hz1
    rw [hm, hz3]
    push_cast
    ring
  have hnlt : ((m : ℤ) + d).toNat < s.spreads.length := by omega
  obtain ⟨sp, hget⟩ : ∃ sp, s.spreads.get? ((m : ℤ) + d).toNat = some sp := by
    rw [List.get?_eq_get hnlt]
    exact ⟨_, rfl⟩
  have hsp : jsIndex s.spreads (s.spreadIndex + (d : ℚ)) = some sp := by
    rw [hcast, jsIndex_natCast]
    exact hget
  have hmem : sp ∈ s.spreads := List.get?_mem hget
  have hhandles := hInv.spreadsOk sp hmem
  by_cases hd1 : (d : ℚ) = 1
  · rw [hd1]
    have hsp1 : jsIndex s.spreads (s.spreadIndex + 1) = some sp := by
      rw [← hd1]; exact hsp
    obtain ⟨a1, a2, a3, a4, a5, _, _, _, _, _, _, _, a13, _, a15, _⟩ :=
      flipPage_accept_fwd s now sp hopen hanim hact hsp1 hhandles.1
    refine ⟨a1, a2, a3, fun hne => absurd rfl hne, fun _ => a5, ?_⟩
    intro t hcs hts
    have hreach' : Reachable cfg (flipPage 1 now s).1 :=
      Reachable.step (Act.flipA 1 now) s h
    have hInv' := reachable_inv cfg _ hreach'
    have hu : (1 : ℚ) ≤ min 1 ((t - (flipPage 1 now s).1.flip.t0) /
        (flipPage 1 now s).1.flipSpeed) := by
      rw [a4, a15]
      exact le_min le_rfl ((one_le_div hcs).mpr hts)
    obtain ⟨_, c2, _⟩ :=
      update_complete_core (flipPage 1 now s).1 t hInv' a2 .pivR a5 hu
    rw [c2, a13, a3]
  · obtain ⟨a1, a2, a3, a4, a5, _, _, _, _, _, _, _, a13, _, a15, _⟩ :=
      flipPage_accept_bwd s (d : ℚ) now sp hd1 hopen hanim hact hsp hhandles.2
    refine ⟨a1, a2, a3, fun _ => a5, fun he => absurd he hd1, ?_⟩
    intro t hcs hts
    have hreach' : Reachable cfg (flipPage (d : ℚ) now s).1 :=
      Reachable.step (Act.flipA (d : ℚ) now) s h
    have hInv' := reachable_inv cfg _ hreach'
    have hu : (1 : ℚ) ≤ min 1 ((t - (flipPage (d : ℚ) now s).1.flip.t0) /
        (flipPage (d : ℚ) now s).1.flipSpeed) := by
      rw [a4, a15]
      exact le_min le_rfl ((one_le_div hcs).mpr hts)
    obtain ⟨_, c2, _⟩ :=
      update_complete_core (flipPage (d : ℚ) now s).1 t hInv' a2 .pivL a5 hu
    rw [c2, a13, a3]

theorem claim_flipPage_any_integer_direction_witness :
    (flipPage ((2 : ℤ) : ℚ) 0 sA).2 = false ∧
    isFlipActive (flipPage ((2 : ℤ) : ℚ) 0 sA).1 = true ∧
    (flipPage ((2 : ℤ) : ℚ) 0 sA).1.flip.dir = ((2 : ℤ) : ℚ) ∧
    (((2 : ℤ) : ℚ) ≠ 1 →
      (flipPage ((2 : ℤ) : ℚ) 0 sA).1.flip.pivot = some .pivL) ∧
    (((2 : ℤ) : ℚ) = 1 →
      (flipPage ((2 : ℤ) : ℚ) 0 sA).1.flip.pivot = some .pivR) ∧
    (∀ t, 0 < sA.flipSpeed → sA.flipSpeed ≤ t - 0 →
      (update t (flipPage ((2 : ℤ) : ℚ) 0 sA).1).1.spreadIndex =
        sA.spreadIndex + ((2 : ℤ) : ℚ)) :=
  claim_flipPage_any_integer_direction cfgA sA reachable_sA 2 0 rfl rfl rfl
    (by show (0 : ℚ) ≤ 0 + ((2 : ℤ) : ℚ); norm_num)
    (by show (0 : ℚ) + ((2 : ℤ) : ℚ) < ((3 : ℕ) : ℚ); norm_num)

end Book3D
